/-
Verification of the tilemapedit3d terrain core against its specification.

Shallow embedding conventions:
- Rust u32 values are modelled as Nat; arithmetic that the source performs in
  u32 (and that can wrap in release builds) carries an explicit `% 2 ^ 32`.
- Rust i8 / i32 values are modelled as Int.
- f32 values are modelled as exact rationals.  All heights in the source are
  integer multiples of TILE_HEIGHT and every claim compares such heights with
  thresholds far larger than any f32 rounding error of these products, so the
  rational model decides every comparison exactly as the f32 code does.
  TILE_SIZE = 2.0 and ELEVATION_FRACTION = 0.4 are given their nominal
  rational values.
- Fallible Rust operations (Vec indexing that may panic, functions returning
  anyhow::Result) become Option / Except.
- `normalize_or_zero` on f32 vectors involves a square root, which has no
  rational counterpart; the whole mesh pipeline is therefore parameterised by
  an arbitrary normalisation function `nrm : Vec3 -> Vec3`.  No claim inspects
  normal values, only their multiplicity.
-/
import Mathlib

/-! ## Grid model (src/types.rs) -/

inductive TileKind where
  | Floor
  | Ramp
deriving DecidableEq, Repr

inductive RampDirection where
  | North
  | East
  | South
  | West
deriving DecidableEq, Repr

def RampDirection.ALL : List RampDirection :=
  [RampDirection.North, RampDirection.East, RampDirection.South, RampDirection.West]

def RampDirection.next : RampDirection → RampDirection
  | RampDirection.North => RampDirection.East
  | RampDirection.East => RampDirection.South
  | RampDirection.South => RampDirection.West
  | RampDirection.West => RampDirection.North

/-- Offset of a direction as (dx, dy), matching RampDirection::offset. -/
def RampDirection.offset : RampDirection → Int × Int
  | RampDirection.North => (0, -1)
  | RampDirection.East => (1, 0)
  | RampDirection.South => (0, 1)
  | RampDirection.West => (-1, 0)

inductive TileType where
  | Grass
  | Dirt
  | Sand
  | Rock
deriving DecidableEq, Repr

def TileType.ALL : List TileType :=
  [TileType.Grass, TileType.Dirt, TileType.Sand, TileType.Rock]

def TileType.as_index : TileType → Nat
  | TileType.Grass => 0
  | TileType.Dirt => 1
  | TileType.Sand => 2
  | TileType.Rock => 3

def TileType.identifier : TileType → String
  | TileType.Grass => "grass"
  | TileType.Dirt => "dirt"
  | TileType.Sand => "sand"
  | TileType.Rock => "rock"

def TileType.default : TileType := TileType.Grass

structure Tile where
  kind : TileKind
  tile_type : TileType
  x : Nat
  y : Nat
  elevation : Int
  ramp_direction : Option RampDirection
deriving DecidableEq, Repr

/-- The all-default tile produced by TileMap::new for every cell. -/
def defaultTile : Tile :=
  { kind := TileKind.Floor, tile_type := TileType.default,
    elevation := 0, x := 0, y := 0, ramp_direction := none }

structure TileMap where
  width : Nat
  height : Nat
  tiles : List Tile
deriving DecidableEq, Repr

/-- TileMap::new: width * height default tiles (the product is u32 arithmetic). -/
def TileMap.new (w h : Nat) : TileMap :=
  { width := w, height := h, tiles := List.replicate ((w * h) % 2 ^ 32) defaultTile }

/-- TileMap::idx. The source computes y * width + x in u32, which wraps. -/
def TileMap.idx (m : TileMap) (x y : Nat) : Nat :=
  ((y * m.width) % 2 ^ 32 + x) % 2 ^ 32

/-- TileMap::get models the Vec index: none exactly when Rust panics. -/
def TileMap.get? (m : TileMap) (x y : Nat) : Option Tile :=
  m.tiles.get? (m.idx x y)

/-- TileMap::set as an Option: none exactly when the Vec write would panic.
Rust slice assignment leaves the vector unchanged length-wise; we rebuild it
with List.set, which agrees with the source for every in-bounds index. -/
def TileMap.set? (m : TileMap) (x y : Nat) (t : Tile) : Option TileMap :=
  if m.idx x y < m.tiles.length then
    some { m with tiles := m.tiles.set (m.idx x y) t }
  else
    none

/-- Total variant of TileMap::get used by terrain code, which only calls it
in-bounds on well-formed maps (where it agrees with the panicking version). -/
def TileMap.get (m : TileMap) (x y : Nat) : Tile :=
  (m.tiles.get? (m.idx x y)).getD defaultTile

/-- Well-formedness of a grid as the spec states it: the tile vector has
exactly width * height entries, and that product fits in u32 (necessarily
true of any grid the program can materialise). -/
def TileMap.WF (m : TileMap) : Prop :=
  m.tiles.length = m.width * m.height ∧ m.width * m.height < 2 ^ 32

def TILE_SIZE : ℚ := 2
def ELEVATION_FRACTION : ℚ := 2 / 5
def TILE_HEIGHT : ℚ := TILE_SIZE * ELEVATION_FRACTION

/-! ## Claim C1: bounds behaviour of get and set -/

/-- A concrete 2 x 2 grid whose four tiles are tagged with distinct
elevations so aliasing is visible. -/
def c1Map : TileMap :=
  { width := 2, height := 2,
    tiles := [ { defaultTile with elevation := 10 },
               { defaultTile with elevation := 11 },
               { defaultTile with elevation := 12 },
               { defaultTile with elevation := 13 } ] }

theorem c1_idx_in_bounds (m : TileMap) (h : m.WF) (x y : Nat)
    (hx : x < m.width) (hy : y < m.height) : m.idx x y < m.tiles.length := by
  obtain ⟨hlen, hfit⟩ := h
  have hyw : y * m.width + x < m.width * m.height := by
    calc y * m.width + x < y * m.width + m.width := by omega
    _ = (y + 1) * m.width := by ring
    _ ≤ m.height * m.width := by
      exact Nat.mul_le_mul_right m.width hy
    _ = m.width * m.height := Nat.mul_comm _ _
  have hsmall : y * m.width + x < 2 ^ 32 := lt_trans hyw hfit
  have h1 : y * m.width % 2 ^ 32 = y * m.width := Nat.mod_eq_of_lt (by omega)
  unfold TileMap.idx
  rw [h1, Nat.mod_eq_of_lt hsmall, hlen]
  exact hyw

/-- Claim C1 counterexample. On the 2 x 2 grid c1Map, the access get(2, 0) has
x = 2 >= width = 2, yet it does not panic (the model returns some): the flat
index 0 * 2 + 2 = 2 is still inside the tile vector, so the call silently
aliases the in-range tile (0, 1).  set behaves the same way.  This refutes
the claim that every out-of-range get or set panics. -/
theorem c1_counterexample :
    c1Map.width ≤ 2 ∧
    c1Map.get? 2 0 = some { defaultTile with elevation := 12 } ∧
    c1Map.get? 2 0 = c1Map.get? 0 1 ∧
    (c1Map.set? 2 0 defaultTile).isSome = true := by
  refine ⟨by decide, by decide, by decide, by decide⟩

/-- Claim C1 as amended: on a well-formed grid, get and set panic exactly when
the (u32-wrapped) flat index y * width + x reaches the tile-vector length
width * height.  In particular y >= height with x < width always panics, but
x >= width can silently alias an in-range tile of a later row, as the
counterexample shows. -/
theorem c1_get_set_panic_iff (m : TileMap) (h : m.WF) (x y : Nat) (t : Tile) :
    (m.get? x y = none ↔ m.width * m.height ≤ m.idx x y) ∧
    (m.set? x y t = none ↔ m.width * m.height ≤ m.idx x y) := by
  obtain ⟨hlen, _⟩ := h
  constructor
  · rw [TileMap.get?, List.get?_eq_none, hlen]
  · rw [TileMap.set?, hlen]
    split_ifs with hc <;> simp <;> omega

theorem c1_witness :
    (c1Map.get? 0 7 = none ↔ c1Map.width * c1Map.height ≤ c1Map.idx 0 7) ∧
    (c1Map.set? 0 7 defaultTile = none ↔ c1Map.width * c1Map.height ≤ c1Map.idx 0 7) :=
  c1_get_set_panic_iff c1Map ⟨by decide, by decide⟩ 0 7 defaultTile

/-! ## Height and seam resolver (src/terrain.rs) -/

structure Vec3 where
  x : ℚ
  y : ℚ
  z : ℚ
deriving DecidableEq, Repr

def Vec3.sub (a b : Vec3) : Vec3 :=
  ⟨a.x - b.x, a.y - b.y, a.z - b.z⟩

def Vec3.cross (a b : Vec3) : Vec3 :=
  ⟨a.y * b.z - a.z * b.y, a.z * b.x - a.x * b.z, a.x * b.y - a.y * b.x⟩

/-- Corner heights of one tile in the fixed order NW, NE, SW, SE (the source
stores them in an array indexed by CORNER_NW = 0, CORNER_NE = 1,
CORNER_SW = 2, CORNER_SE = 3). -/
structure Corners where
  nw : ℚ
  ne : ℚ
  sw : ℚ
  se : ℚ
deriving DecidableEq, Repr

def Corners.flat (base : ℚ) : Corners := ⟨base, base, base, base⟩

/-- ramp_neighbor_height: the height of the neighbor in direction dir, when
that neighbor is in bounds and strictly lower than base. -/
def ramp_neighbor_height (m : TileMap) (x y : Nat) (dir : RampDirection) (base : ℚ) :
    Option ℚ :=
  let d := dir.offset
  let nx : Int := (x : Int) + d.1
  let ny : Int := (y : Int) + d.2
  if nx < 0 ∨ ny < 0 then none
  else
    let ux := nx.toNat
    let uy := ny.toNat
    if m.width ≤ ux ∨ m.height ≤ uy then none
    else
      let neighbor := m.get ux uy
      let height := (neighbor.elevation : ℚ) * TILE_HEIGHT
      if height < base then some height else none

/-- find_ramp_target: scan the four directions in ALL order, keeping the
candidate with the strictly lowest height (the existing candidate survives a
tie, hence first-seen wins). -/
def find_ramp_target (m : TileMap) (x y : Nat) (base : ℚ) :
    Option (RampDirection × ℚ) :=
  RampDirection.ALL.foldl
    (fun result dir =>
      match ramp_neighbor_height m x y dir base with
      | some height =>
        match result with
        | some (d0, existing) => if existing ≤ height then some (d0, existing) else some (dir, height)
        | none => some (dir, height)
      | none => result)
    none

/-- tile_corner_heights: flat base corners, except that a Ramp tile lowers the
two corners of the chosen downhill edge to the neighbor height.  The stored
ramp_direction is tried first, then the four-direction search. -/
def tile_corner_heights (m : TileMap) (x y : Nat) : Corners :=
  let tile := m.get x y
  let base := (tile.elevation : ℚ) * TILE_HEIGHT
  if tile.kind = TileKind.Ramp then
    let stored := tile.ramp_direction.bind
      (fun dir => (ramp_neighbor_height m x y dir base).map (fun h => (dir, h)))
    let target := match stored with
      | none => find_ramp_target m x y base
      | some t => some t
    match target with
    | some (dir, neighbor_height) =>
      match dir with
      | RampDirection.North => ⟨neighbor_height, neighbor_height, base, base⟩
      | RampDirection.South => ⟨base, base, neighbor_height, neighbor_height⟩
      | RampDirection.West => ⟨neighbor_height, base, neighbor_height, base⟩
      | RampDirection.East => ⟨base, neighbor_height, base, neighbor_height⟩
    | none => Corners.flat base
  else
    Corners.flat base

/-- The edge-lowering of the match inside tile_corner_heights, named so the
claim statement can mention it. -/
def lowerEdge (base : ℚ) (dir : RampDirection) (h : ℚ) : Corners :=
  match dir with
  | RampDirection.North => ⟨h, h, base, base⟩
  | RampDirection.South => ⟨base, base, h, h⟩
  | RampDirection.West => ⟨h, base, h, base⟩
  | RampDirection.East => ⟨base, h, base, h⟩

/-- The candidate list the search effectively ranges over: the valid downhill
neighbors, listed in the fixed North, East, South, West order. -/
def rampCandidates (m : TileMap) (x y : Nat) (base : ℚ) :
    List (RampDirection × ℚ) :=
  RampDirection.ALL.filterMap
    (fun dir => (ramp_neighbor_height m x y dir base).map (fun h => (dir, h)))

/-- One step of the find_ramp_target accumulator: keep the existing candidate
on a tie or when it is lower, otherwise adopt the new entry. -/
def pickStep (result : Option (RampDirection × ℚ)) (e : RampDirection × ℚ) :
    Option (RampDirection × ℚ) :=
  match result with
  | some (d0, existing) => if existing ≤ e.2 then some (d0, existing) else some e
  | none => some e

def pickFirstMin (es : List (RampDirection × ℚ)) : Option (RampDirection × ℚ) :=
  es.foldl pickStep none

lemma find_ramp_target_eq_pick (m : TileMap) (x y : Nat) (base : ℚ) :
    find_ramp_target m x y base = pickFirstMin (rampCandidates m x y base) := by
  unfold find_ramp_target rampCandidates pickFirstMin RampDirection.ALL
  simp only [List.foldl_cons, List.foldl_nil, List.filterMap_cons, List.filterMap_nil]
  rcases hN : ramp_neighbor_height m x y RampDirection.North base with _ | vN <;>
    rcases hE : ramp_neighbor_height m x y RampDirection.East base with _ | vE <;>
      rcases hS : ramp_neighbor_height m x y RampDirection.South base with _ | vS <;>
        rcases hW : ramp_neighbor_height m x y RampDirection.West base with _ | vW <;>
          simp [hN, hE, hS, hW, pickStep] <;>
            split_ifs <;> simp

lemma pickFold_none (es : List (RampDirection × ℚ)) :
    ∀ acc, es.foldl pickStep acc = none ↔ (acc = none ∧ es = []) := by
  induction es with
  | nil => intro acc; simp
  | cons e es ih =>
    intro acc
    rw [List.foldl_cons, ih]
    constructor
    · rintro ⟨hstep, -⟩
      exfalso
      cases acc with
      | none => simp [pickStep] at hstep
      | some p =>
        obtain ⟨d0, h0⟩ := p
        simp only [pickStep] at hstep
        split_ifs at hstep <;> simp at hstep
    · rintro ⟨-, h⟩; exact absurd h (List.cons_ne_nil e es)

lemma pickFold_some_spec (es : List (RampDirection × ℚ)) :
    ∀ (acc : Option (RampDirection × ℚ)) (d : RampDirection) (h : ℚ),
    es.foldl pickStep acc = some (d, h) →
    (acc = some (d, h) ∧ ∀ p ∈ es, h ≤ p.2) ∨
    (∃ pre post, es = pre ++ (d, h) :: post ∧ (∀ p ∈ pre, h < p.2) ∧
      (∀ p ∈ post, h ≤ p.2) ∧ (∀ d0 h0, acc = some (d0, h0) → h < h0)) := by
  induction es with
  | nil =>
    intro acc d h hfold
    left
    exact ⟨hfold, by simp⟩
  | cons e es ih =>
    obtain ⟨e1, e2⟩ := e
    intro acc d h hfold
    rw [List.foldl_cons] at hfold
    cases acc with
    | none =>
      have hstep : pickStep none (e1, e2) = some (e1, e2) := rfl
      rw [hstep] at hfold
      rcases ih (some (e1, e2)) d h hfold with ⟨heq, hall⟩ | ⟨pre, post, hsplit, hpre, hpost, hacc⟩
      · simp only [Option.some.injEq, Prod.mk.injEq] at heq
        obtain ⟨rfl, rfl⟩ := heq
        right
        exact ⟨[], es, rfl, by simp, hall, by simp⟩
      · right
        refine ⟨(e1, e2) :: pre, post, by simp [hsplit], ?_, hpost, by simp⟩
        intro p hp
        rcases List.mem_cons.mp hp with rfl | hppre
        · exact hacc e1 e2 rfl
        · exact hpre p hppre
    | some p0 =>
      obtain ⟨d0, h0⟩ := p0
      by_cases hle : h0 ≤ e2
      · have hstep : pickStep (some (d0, h0)) (e1, e2) = some (d0, h0) := by
          simp [pickStep, hle]
        rw [hstep] at hfold
        rcases ih (some (d0, h0)) d h hfold with ⟨heq, hall⟩ | ⟨pre, post, hsplit, hpre, hpost, hacc⟩
        · simp only [Option.some.injEq, Prod.mk.injEq] at heq
          obtain ⟨rfl, rfl⟩ := heq
          left
          refine ⟨rfl, ?_⟩
          intro p hp
          rcases List.mem_cons.mp hp with rfl | hppre
          · exact hle
          · exact hall p hppre
        · right
          have hlt : h < h0 := hacc d0 h0 rfl
          refine ⟨(e1, e2) :: pre, post, by simp [hsplit], ?_, hpost, ?_⟩
          · intro p hp
            rcases List.mem_cons.mp hp with rfl | hppre
            · exact lt_of_lt_of_le hlt hle
            · exact hpre p hppre
          · intro d1 h1 hacc1
            simp only [Option.some.injEq, Prod.mk.injEq] at hacc1
            obtain ⟨rfl, rfl⟩ := hacc1
            exact hlt
      · have hstep : pickStep (some (d0, h0)) (e1, e2) = some (e1, e2) := by
          simp [pickStep, hle]
        rw [hstep] at hfold
        rcases ih (some (e1, e2)) d h hfold with ⟨heq, hall⟩ | ⟨pre, post, hsplit, hpre, hpost, hacc⟩
        · simp only [Option.some.injEq, Prod.mk.injEq] at heq
          obtain ⟨rfl, rfl⟩ := heq
          right
          refine ⟨[], es, rfl, by simp, hall, ?_⟩
          intro d1 h1 hacc1
          simp only [Option.some.injEq, Prod.mk.injEq] at hacc1
          obtain ⟨rfl, rfl⟩ := hacc1
          exact lt_of_not_ge hle
        · right
          have hlt : h < e2 := hacc e1 e2 rfl
          refine ⟨(e1, e2) :: pre, post, by simp [hsplit], ?_, hpost, ?_⟩
          · intro p hp
            rcases List.mem_cons.mp hp with rfl | hppre
            · exact hlt
            · exact hpre p hppre
          · intro d1 h1 hacc1
            simp only [Option.some.injEq, Prod.mk.injEq] at hacc1
            obtain ⟨rfl, rfl⟩ := hacc1
            exact lt_trans hlt (lt_of_not_ge hle)

/-- Base height of the tile at (x, y): elevation * TILE_HEIGHT. -/
def tileBase (m : TileMap) (x y : Nat) : ℚ :=
  ((m.get x y).elevation : ℚ) * TILE_HEIGHT

lemma mem_rampCandidates (m : TileMap) (x y : Nat) (base : ℚ)
    (d : RampDirection) (h : ℚ) :
    (d, h) ∈ rampCandidates m x y base ↔
      ramp_neighbor_height m x y d base = some h := by
  unfold rampCandidates
  rw [List.mem_filterMap]
  constructor
  · rintro ⟨a, -, hfa⟩
    rcases ha : ramp_neighbor_height m x y a base with _ | v
    · rw [ha] at hfa; simp at hfa
    · rw [ha] at hfa
      simp only [Option.map_some', Option.some.injEq, Prod.mk.injEq] at hfa
      obtain ⟨rfl, rfl⟩ := hfa
      exact ha
  · intro hd
    refine ⟨d, by cases d <;> simp [RampDirection.ALL], by rw [hd]; rfl⟩

lemma rampCandidates_nil_iff (m : TileMap) (x y : Nat) (base : ℚ) :
    rampCandidates m x y base = [] ↔
      ∀ d, ramp_neighbor_height m x y d base = none := by
  unfold rampCandidates
  rw [List.filterMap_eq_nil]
  constructor
  · intro hall d
    have := hall d (by cases d <;> simp [RampDirection.ALL])
    rcases hd : ramp_neighbor_height m x y d base with _ | v
    · rfl
    · rw [hd] at this; simp at this
  · intro hall a _
    rw [hall a]; rfl

lemma find_ramp_target_none_iff (m : TileMap) (x y : Nat) (base : ℚ) :
    find_ramp_target m x y base = none ↔
      ∀ d, ramp_neighbor_height m x y d base = none := by
  rw [find_ramp_target_eq_pick, pickFirstMin, pickFold_none,
    rampCandidates_nil_iff]
  simp

lemma tile_corner_heights_of_invalid (m : TileMap) (x y : Nat)
    (hkind : (m.get x y).kind = TileKind.Ramp)
    (hstored : (m.get x y).ramp_direction.bind
      (fun dir => (ramp_neighbor_height m x y dir (tileBase m x y)).map
        (fun h => (dir, h))) = none) :
    tile_corner_heights m x y =
      match find_ramp_target m x y (tileBase m x y) with
      | none => Corners.flat (tileBase m x y)
      | some (dir, h) => lowerEdge (tileBase m x y) dir h := by
  unfold tileBase at hstored ⊢
  unfold tile_corner_heights
  simp only [hkind, if_pos, if_true, reduceIte, hstored]
  rcases hf : find_ramp_target m x y (((m.get x y).elevation : ℚ) * TILE_HEIGHT)
      with _ | ⟨dir, hh⟩
  · rfl
  · cases dir <;> rfl

/-- Claim C3: for a Ramp tile whose stored ramp_direction is absent or does not
point at an in-bounds strictly lower neighbor, the resolver falls back to the
four-direction search in the fixed North, East, South, West order.  If no
direction has a strictly lower neighbor the four corners all stay at
elevation * TILE_HEIGHT; otherwise the chosen direction carries the globally
lowest neighbor height and, among the candidates listed in search order, every
candidate strictly before the chosen one is strictly higher (first-seen wins
on exact ties), and the corners on the chosen edge are lowered to the
neighbor height. -/
theorem c3_ramp_fallback_search (m : TileMap) (x y : Nat)
    (hkind : (m.get x y).kind = TileKind.Ramp)
    (hstored : (m.get x y).ramp_direction.bind
      (fun dir => (ramp_neighbor_height m x y dir (tileBase m x y)).map
        (fun h => (dir, h))) = none) :
    ((∀ d, ramp_neighbor_height m x y d (tileBase m x y) = none) →
       tile_corner_heights m x y = Corners.flat (tileBase m x y)) ∧
    (∀ d h, find_ramp_target m x y (tileBase m x y) = some (d, h) →
       tile_corner_heights m x y = lowerEdge (tileBase m x y) d h ∧
       ramp_neighbor_height m x y d (tileBase m x y) = some h ∧
       (∀ d' h', ramp_neighbor_height m x y d' (tileBase m x y) = some h' →
         h ≤ h') ∧
       (∃ pre post,
         rampCandidates m x y (tileBase m x y) = pre ++ (d, h) :: post ∧
         ∀ p ∈ pre, h < p.2)) ∧
    (find_ramp_target m x y (tileBase m x y) = none ↔
       ∀ d, ramp_neighbor_height m x y d (tileBase m x y) = none) := by
  have hred := tile_corner_heights_of_invalid m x y hkind hstored
  refine ⟨?_, ?_, find_ramp_target_none_iff m x y (tileBase m x y)⟩
  · intro hall
    rw [hred, (find_ramp_target_none_iff m x y (tileBase m x y)).mpr hall]
  · intro d h hf
    have hcorners : tile_corner_heights m x y = lowerEdge (tileBase m x y) d h := by
      rw [hred, hf]
    have hf2 := hf
    rw [find_ramp_target_eq_pick, pickFirstMin] at hf2
    rcases pickFold_some_spec (rampCandidates m x y (tileBase m x y)) none d h hf2
      with ⟨hbad, -⟩ | ⟨pre, post, hsplit, hpre, hpost, -⟩
    · exact absurd hbad (by simp)
    · have hmem : (d, h) ∈ rampCandidates m x y (tileBase m x y) := by
        rw [hsplit]
        exact List.mem_append_right pre (List.mem_cons_self _ _)
      refine ⟨hcorners, (mem_rampCandidates m x y _ d h).mp hmem, ?_, pre, post, hsplit, hpre⟩
      intro d' h' hd'
      have hmem' : (d', h') ∈ rampCandidates m x y (tileBase m x y) :=
        (mem_rampCandidates m x y _ d' h').mpr hd'
      rw [hsplit] at hmem'
      rcases List.mem_append.mp hmem' with hin | hin
      · exact le_of_lt (hpre _ hin)
      · rcases List.mem_cons.mp hin with heq | hin
        · injection heq with heq1 heq2
          simp [heq2]
        · exact hpost _ hin

/-- A 2 x 1 grid: a Ramp tile at elevation 1 with no stored direction next to
a Floor tile at elevation 0, so the fallback search fires and picks East. -/
def c3Map : TileMap :=
  { width := 2, height := 1,
    tiles := [ { defaultTile with kind := TileKind.Ramp, elevation := 1 },
               defaultTile ] }

theorem c3_witness :
    ((∀ d, ramp_neighbor_height c3Map 0 0 d (tileBase c3Map 0 0) = none) →
       tile_corner_heights c3Map 0 0 = Corners.flat (tileBase c3Map 0 0)) ∧
    (∀ d h, find_ramp_target c3Map 0 0 (tileBase c3Map 0 0) = some (d, h) →
       tile_corner_heights c3Map 0 0 = lowerEdge (tileBase c3Map 0 0) d h ∧
       ramp_neighbor_height c3Map 0 0 d (tileBase c3Map 0 0) = some h ∧
       (∀ d' h', ramp_neighbor_height c3Map 0 0 d' (tileBase c3Map 0 0) = some h' →
         h ≤ h') ∧
       (∃ pre post,
         rampCandidates c3Map 0 0 (tileBase c3Map 0 0) = pre ++ (d, h) :: post ∧
         ∀ p ∈ pre, h < p.2)) ∧
    (find_ramp_target c3Map 0 0 (tileBase c3Map 0 0) = none ↔
       ∀ d, ramp_neighbor_height c3Map 0 0 d (tileBase c3Map 0 0) = none) :=
  c3_ramp_fallback_search c3Map 0 0 (by decide) (by decide)

/-! ## Geometry emitter (src/terrain.rs) -/

/-- Per-vertex color records are 4 floats, indexed 0..3 via the four
projections of a nested pair. -/
abbrev Color4 : Type := ℚ × ℚ × ℚ × ℚ

abbrev UV : Type := ℚ × ℚ

structure MeshBuffers where
  positions : List Vec3 := []
  normals : List Vec3 := []
  uvs : List UV := []
  tile_layers : Option (List UV) := none
  colors : Option (List Color4) := none
  indices : List Nat := []
  next_index : Nat := 0
deriving DecidableEq

def MeshBuffers.with_tile_types : MeshBuffers :=
  { tile_layers := some [], colors := some [] }

/-- Read a cached corner record; populate always builds a full-size cache so
the default is never hit on in-bounds reads of well-formed grids. -/
def cacheAt (cache : List Corners) (i : Nat) : Corners :=
  cache.getD i (Corners.flat 0)

/-- max_corner_height: fold of f32 max from negative infinity over the four
corners, which on four rationals is just their maximum. -/
def max_corner_height (c : Corners) : ℚ :=
  max (max (max c.nw c.ne) c.sw) c.se

/-- The epsilon of add_side_face and should_force_cliff_face (1e-4). -/
def EPS : ℚ := 1 / 10000

/-- The epsilon of tile_top_blend_mask (0.01). -/
def HEIGHT_EPSILON : ℚ := 1 / 100

def should_force_cliff_face (tile_kind : TileKind) (neighbor_kind : Option TileKind)
    (top_a top_b bottom_a bottom_b : Vec3) : Bool :=
  if tile_kind ≠ TileKind.Ramp ∧ neighbor_kind ≠ some TileKind.Ramp then false
  else
    let drop_a := top_a.y - bottom_a.y
    let drop_b := top_b.y - bottom_b.y
    decide (EPS < drop_a ∨ EPS < drop_b)

def tile_top_blend_mask (m : TileMap) (corner_cache : List Corners)
    (x y : Nat) (top_height : ℚ) : Color4 :=
  let m0 : Nat := 0
  let m1 := if 0 < y ∧
      |top_height - max_corner_height (cacheAt corner_cache (m.idx x (y - 1)))| < HEIGHT_EPSILON
    then m0 ||| 1 else m0
  let m2 := if y + 1 < m.height ∧
      |top_height - max_corner_height (cacheAt corner_cache (m.idx x (y + 1)))| < HEIGHT_EPSILON
    then m1 ||| 2 else m1
  let m3 := if 0 < x ∧
      |top_height - max_corner_height (cacheAt corner_cache (m.idx (x - 1) y))| < HEIGHT_EPSILON
    then m2 ||| 4 else m2
  let m4 := if x + 1 < m.width ∧
      |top_height - max_corner_height (cacheAt corner_cache (m.idx (x + 1) y))| < HEIGHT_EPSILON
    then m3 ||| 8 else m3
  ((-2 : ℚ), (m4 : ℚ), (0 : ℚ), (0 : ℚ))

section MeshPipeline

variable (nrm : Vec3 → Vec3)

def push_triangle (buf : MeshBuffers) (a b c : Vec3) (ta tb tc : UV) : MeshBuffers :=
  let normal := nrm ((b.sub a).cross (c.sub a))
  { buf with
    positions := buf.positions ++ [a, b, c],
    normals := buf.normals ++ [normal, normal, normal],
    uvs := buf.uvs ++ [ta, tb, tc],
    indices := buf.indices ++ [buf.next_index, buf.next_index + 1, buf.next_index + 2],
    next_index := buf.next_index + 3 }

def push_quad (buf : MeshBuffers) (verts : Vec3 × Vec3 × Vec3 × Vec3)
    (tex : UV × UV × UV × UV) (tile_info : Option UV) (color_info : Option Color4) :
    MeshBuffers :=
  let buf1 := push_triangle nrm buf verts.1 verts.2.1 verts.2.2.1 tex.1 tex.2.1 tex.2.2.1
  let buf2 := push_triangle nrm buf1 verts.1 verts.2.2.1 verts.2.2.2 tex.1 tex.2.2.1 tex.2.2.2
  { buf2 with
    tile_layers := buf2.tile_layers.map
      (fun ls => ls ++ List.replicate 6 (tile_info.getD ((0 : ℚ), (0 : ℚ)))),
    colors := buf2.colors.map
      (fun cs => cs ++ List.replicate 6 (color_info.getD ((-1 : ℚ), (0 : ℚ), (0 : ℚ), (0 : ℚ)))) }

def zeroTex : UV × UV × UV × UV :=
  (((0 : ℚ), (0 : ℚ)), ((0 : ℚ), (0 : ℚ)), ((0 : ℚ), (0 : ℚ)), ((0 : ℚ), (0 : ℚ)))

/-- add_side_face.  The source match on direction returns the same vertex
order and texture coordinates in all four arms; it is kept verbatim.  The
MeshBuffers method wrapper that merely forwards its fields is inlined. -/
def add_side_face (buf : MeshBuffers) (top_a top_b bottom_a bottom_b : Vec3)
    (direction : RampDirection) (tile_layer : Option ℚ) (seam_height : ℚ)
    (bottom_info : Option Color4) (force_cliff : Bool) : MeshBuffers :=
  if |top_a.y - bottom_a.y| < EPS ∧ |top_b.y - bottom_b.y| < EPS then buf
  else
    let vt :=
      match direction with
      | RampDirection.North => ((top_a, top_b, bottom_b, bottom_a), zeroTex)
      | RampDirection.South => ((top_a, top_b, bottom_b, bottom_a), zeroTex)
      | RampDirection.West => ((top_a, top_b, bottom_b, bottom_a), zeroTex)
      | RampDirection.East => ((top_a, top_b, bottom_b, bottom_a), zeroTex)
    let color_info :=
      match bottom_info with
      | some info => some (info.1, info.2.1, if force_cliff then (1 : ℚ) else 0, info.2.2.2)
      | none => if force_cliff then some ((-1 : ℚ), (0 : ℚ), (1 : ℚ), (0 : ℚ)) else none
    push_quad nrm buf vt.1 vt.2 (tile_layer.map (fun layer => (layer, seam_height))) color_info

/-- Top-face block of append_tile_geometry. -/
def append_top_face (m : TileMap) (corner_cache : List Corners)
    (x y : Nat) (buf : MeshBuffers) (tile_layer : Option ℚ) : MeshBuffers :=
  let corners := cacheAt corner_cache (m.idx x y)
  let x0 := (x : ℚ) * TILE_SIZE
  let x1 := x0 + TILE_SIZE
  let z0 := (y : ℚ) * TILE_SIZE
  let z1 := z0 + TILE_SIZE
  let nw : Vec3 := ⟨x0, corners.nw, z0⟩
  let ne : Vec3 := ⟨x1, corners.ne, z0⟩
  let sw : Vec3 := ⟨x0, corners.sw, z1⟩
  let se : Vec3 := ⟨x1, corners.se, z1⟩
  let top_height := max_corner_height corners
  let top_color_info :=
    if tile_layer.isSome then some (tile_top_blend_mask m corner_cache x y top_height)
    else none
  push_quad nrm buf (nw, sw, se, ne) zeroTex
    (tile_layer.map (fun layer => (layer, top_height))) top_color_info

/-- North-edge block of append_tile_geometry. -/
def append_north_face (m : TileMap) (corner_cache : List Corners)
    (x y : Nat) (buf : MeshBuffers) (tile_layer : Option ℚ) : MeshBuffers :=
  let corners := cacheAt corner_cache (m.idx x y)
  let tile_kind := (m.get x y).kind
  let x0 := (x : ℚ) * TILE_SIZE
  let x1 := x0 + TILE_SIZE
  let z0 := (y : ℚ) * TILE_SIZE
  let nw : Vec3 := ⟨x0, corners.nw, z0⟩
  let ne : Vec3 := ⟨x1, corners.ne, z0⟩
  let north :=
    if 0 < y then
      let neighbor := cacheAt corner_cache (m.idx x (y - 1))
      let neighbor_tile := m.get x (y - 1)
      (neighbor.sw, neighbor.se, some neighbor_tile.kind,
        some ((neighbor_tile.tile_type.as_index : ℚ)))
    else ((0 : ℚ), (0 : ℚ), (none : Option TileKind), (none : Option ℚ))
  let north_bottom_a_y := min north.1 nw.y
  let north_bottom_b_y := min north.2.1 ne.y
  let north_bottom_a : Vec3 := ⟨x0, north_bottom_a_y, z0⟩
  let north_bottom_b : Vec3 := ⟨x1, north_bottom_b_y, z0⟩
  let north_bottom_info := north.2.2.2.map
    (fun layer => (layer, max north_bottom_a_y north_bottom_b_y, (0 : ℚ), (0 : ℚ)))
  let north_force_cliff :=
    should_force_cliff_face tile_kind north.2.2.1 nw ne north_bottom_a north_bottom_b
  add_side_face nrm buf nw ne north_bottom_a north_bottom_b
    RampDirection.North tile_layer (max nw.y ne.y) north_bottom_info north_force_cliff

/-- South-edge block of append_tile_geometry. -/
def append_south_face (m : TileMap) (corner_cache : List Corners)
    (x y : Nat) (buf : MeshBuffers) (tile_layer : Option ℚ) : MeshBuffers :=
  let corners := cacheAt corner_cache (m.idx x y)
  let tile_kind := (m.get x y).kind
  let x0 := (x : ℚ) * TILE_SIZE
  let x1 := x0 + TILE_SIZE
  let z0 := (y : ℚ) * TILE_SIZE
  let z1 := z0 + TILE_SIZE
  let sw : Vec3 := ⟨x0, corners.sw, z1⟩
  let se : Vec3 := ⟨x1, corners.se, z1⟩
  let south :=
    if y + 1 < m.height then
      let neighbor := cacheAt corner_cache (m.idx x (y + 1))
      let neighbor_tile := m.get x (y + 1)
      (neighbor.nw, neighbor.ne, some neighbor_tile.kind,
        some ((neighbor_tile.tile_type.as_index : ℚ)))
    else ((0 : ℚ), (0 : ℚ), (none : Option TileKind), (none : Option ℚ))
  let south_bottom_a_y := min south.2.1 se.y
  let south_bottom_b_y := min south.1 sw.y
  let south_bottom_a : Vec3 := ⟨x1, south_bottom_a_y, z1⟩
  let south_bottom_b : Vec3 := ⟨x0, south_bottom_b_y, z1⟩
  let south_bottom_info := south.2.2.2.map
    (fun layer => (layer, max south_bottom_a_y south_bottom_b_y, (0 : ℚ), (0 : ℚ)))
  let south_force_cliff :=
    should_force_cliff_face tile_kind south.2.2.1 se sw south_bottom_a south_bottom_b
  add_side_face nrm buf se sw south_bottom_a south_bottom_b
    RampDirection.South tile_layer (max se.y sw.y) south_bottom_info south_force_cliff

/-- West-edge block of append_tile_geometry. -/
def append_west_face (m : TileMap) (corner_cache : List Corners)
    (x y : Nat) (buf : MeshBuffers) (tile_layer : Option ℚ) : MeshBuffers :=
  let corners := cacheAt corner_cache (m.idx x y)
  let tile_kind := (m.get x y).kind
  let x0 := (x : ℚ) * TILE_SIZE
  let z0 := (y : ℚ) * TILE_SIZE
  let z1 := z0 + TILE_SIZE
  let nw : Vec3 := ⟨x0, corners.nw, z0⟩
  let sw : Vec3 := ⟨x0, corners.sw, z1⟩
  let west :=
    if 0 < x then
      let neighbor := cacheAt corner_cache (m.idx (x - 1) y)
      let neighbor_tile := m.get (x - 1) y
      (neighbor.ne, neighbor.se, some neighbor_tile.kind,
        some ((neighbor_tile.tile_type.as_index : ℚ)))
    else ((0 : ℚ), (0 : ℚ), (none : Option TileKind), (none : Option ℚ))
  let west_bottom_a_y := min west.2.1 sw.y
  let west_bottom_b_y := min west.1 nw.y
  let west_bottom_a : Vec3 := ⟨x0, west_bottom_a_y, z1⟩
  let west_bottom_b : Vec3 := ⟨x0, west_bottom_b_y, z0⟩
  let west_bottom_info := west.2.2.2.map
    (fun layer => (layer, max west_bottom_a_y west_bottom_b_y, (0 : ℚ), (0 : ℚ)))
  let west_force_cliff :=
    should_force_cliff_face tile_kind west.2.2.1 sw nw west_bottom_a west_bottom_b
  add_side_face nrm buf sw nw west_bottom_a west_bottom_b
    RampDirection.West tile_layer (max sw.y nw.y) west_bottom_info west_force_cliff

/-- East-edge block of append_tile_geometry. -/
def append_east_face (m : TileMap) (corner_cache : List Corners)
    (x y : Nat) (buf : MeshBuffers) (tile_layer : Option ℚ) : MeshBuffers :=
  let corners := cacheAt corner_cache (m.idx x y)
  let tile_kind := (m.get x y).kind
  let x0 := (x : ℚ) * TILE_SIZE
  let x1 := x0 + TILE_SIZE
  let z0 := (y : ℚ) * TILE_SIZE
  let z1 := z0 + TILE_SIZE
  let ne : Vec3 := ⟨x1, corners.ne, z0⟩
  let se : Vec3 := ⟨x1, corners.se, z1⟩
  let east :=
    if x + 1 < m.width then
      let neighbor := cacheAt corner_cache (m.idx (x + 1) y)
      let neighbor_tile := m.get (x + 1) y
      (neighbor.nw, neighbor.sw, some neighbor_tile.kind,
        some ((neighbor_tile.tile_type.as_index : ℚ)))
    else ((0 : ℚ), (0 : ℚ), (none : Option TileKind), (none : Option ℚ))
  let east_bottom_a_y := min east.1 ne.y
  let east_bottom_b_y := min east.2.1 se.y
  let east_bottom_a : Vec3 := ⟨x1, east_bottom_a_y, z0⟩
  let east_bottom_b : Vec3 := ⟨x1, east_bottom_b_y, z1⟩
  let east_bottom_info := east.2.2.2.map
    (fun layer => (layer, max east_bottom_a_y east_bottom_b_y, (0 : ℚ), (0 : ℚ)))
  let east_force_cliff :=
    should_force_cliff_face tile_kind east.2.2.1 ne se east_bottom_a east_bottom_b
  add_side_face nrm buf ne se east_bottom_a east_bottom_b
    RampDirection.East tile_layer (max ne.y se.y) east_bottom_info east_force_cliff

/-- append_tile_geometry is the sequential composition of its five blocks:
top face, then the north, south, west, east side faces, exactly in the order
of the source body (the five helpers above are its statement blocks, split so
that per-block lemmas compose). -/
def append_tile_geometry (m : TileMap) (corner_cache : List Corners)
    (x y : Nat) (buf : MeshBuffers) (tile_layer : Option ℚ) : MeshBuffers :=
  append_east_face nrm m corner_cache x y
    (append_west_face nrm m corner_cache x y
      (append_south_face nrm m corner_cache x y
        (append_north_face nrm m corner_cache x y
          (append_top_face nrm m corner_cache x y buf tile_layer)
          tile_layer)
        tile_layer)
      tile_layer)
    tile_layer

end MeshPipeline

/-- The traversal order of the double loop for y in 0..height, for x in 0..width. -/
def coordList (m : TileMap) : List (Nat × Nat) :=
  (List.range m.height).flatMap (fun y => (List.range m.width).map (fun x => (x, y)))

/-- The corner-height cache: a zero-initialised vector of width * height
records, then one full pass storing tile_corner_heights at map.idx(x, y). -/
def build_corner_cache (m : TileMap) : List Corners :=
  (coordList m).foldl
    (fun cache p => cache.set (m.idx p.1 p.2) (tile_corner_heights m p.1 p.2))
    (List.replicate ((m.width * m.height) % 2 ^ 32) (Corners.flat 0))

section MeshPipeline2

variable (nrm : Vec3 → Vec3)

/-- Per-type half of one loop iteration of populate_mesh_buffers: HashMap
entry-or-default insertion followed by appending the tile geometry with no
layer metadata. -/
def populate_step_per_type (m : TileMap) (corner_cache : List Corners)
    (p : Nat × Nat) (buffers : TileType → Option MeshBuffers) :
    TileType → Option MeshBuffers :=
  let tile_type := (m.get p.1 p.2).tile_type
  let buffer := (buffers tile_type).getD {}
  fun t =>
    if t = tile_type then
      some (append_tile_geometry nrm m corner_cache p.1 p.2 buffer none)
    else buffers t

/-- Combined half of one loop iteration of populate_mesh_buffers: append the
tile geometry carrying the surface-type index as the layer value. -/
def populate_step_combined (m : TileMap) (corner_cache : List Corners)
    (p : Nat × Nat) (b : MeshBuffers) : MeshBuffers :=
  let tile_layer := ((m.get p.1 p.2).tile_type.as_index : ℚ)
  append_tile_geometry nrm m corner_cache p.1 p.2 b (some tile_layer)

/-- populate_mesh_buffers: one pass over all tiles, feeding the per-type
HashMap (modelled as a function to Option MeshBuffers) and the combined
buffer. -/
def populate_mesh_buffers (m : TileMap)
    (per_type : Option (TileType → Option MeshBuffers))
    (combined : Option MeshBuffers) :
    Option (TileType → Option MeshBuffers) × Option MeshBuffers :=
  if m.width = 0 ∨ m.height = 0 then (per_type, combined)
  else
    let corner_cache := build_corner_cache m
    (coordList m).foldl
      (fun acc p =>
        (acc.1.map (populate_step_per_type nrm m corner_cache p),
         acc.2.map (populate_step_combined nrm m corner_cache p)))
      (per_type, combined)

end MeshPipeline2

/-! ## Mesh assembly (MeshBuffers::into_mesh and the bevy mesh surface) -/

inductive VertexAttributeValues where
  | Float32x2 : List UV → VertexAttributeValues
  | Float32x3 : List Vec3 → VertexAttributeValues
  | Float32x4 : List Color4 → VertexAttributeValues
deriving DecidableEq

inductive MeshIndices where
  | U16 : List Nat → MeshIndices
  | U32 : List Nat → MeshIndices
deriving DecidableEq

/-- The bevy Mesh surface restricted to the attributes this program reads and
writes: ATTRIBUTE_POSITION, ATTRIBUTE_NORMAL, ATTRIBUTE_UV_0, ATTRIBUTE_UV_1,
ATTRIBUTE_COLOR, and the index buffer.  A missing attribute is none. -/
structure Mesh where
  position : Option VertexAttributeValues := none
  normal : Option VertexAttributeValues := none
  uv0 : Option VertexAttributeValues := none
  uv1 : Option VertexAttributeValues := none
  color : Option VertexAttributeValues := none
  indices : Option MeshIndices := none
deriving DecidableEq

def MeshBuffers.into_mesh (b : MeshBuffers) : Mesh :=
  { position := some (VertexAttributeValues.Float32x3 b.positions),
    normal := some (VertexAttributeValues.Float32x3 b.normals),
    uv0 := some (VertexAttributeValues.Float32x2 b.uvs),
    uv1 := match b.tile_layers with
      | some ls => if ls.isEmpty then none else some (VertexAttributeValues.Float32x2 ls)
      | none => none,
    color := match b.colors with
      | some cs => if cs.isEmpty then none else some (VertexAttributeValues.Float32x4 cs)
      | none => none,
    indices := if b.indices.isEmpty then none else some (MeshIndices.U32 b.indices) }

section MeshPipeline3

variable (nrm : Vec3 → Vec3)

def build_map_meshes (m : TileMap) : TileType → Option Mesh :=
  match (populate_mesh_buffers nrm m (some (fun _ => none)) none).1 with
  | some buffers => fun t => (buffers t).map MeshBuffers.into_mesh
  | none => fun _ => none

def build_combined_mesh (m : TileMap) : Mesh :=
  match (populate_mesh_buffers nrm m none (some MeshBuffers.with_tile_types)).2 with
  | some b => b.into_mesh
  | none => MeshBuffers.with_tile_types.into_mesh

end MeshPipeline3

/-! ## Field-level lemmas for the mesh buffer operations -/

section MeshOpLemmas

variable (nrm : Vec3 → Vec3)

lemma push_quad_positions (buf : MeshBuffers) (verts : Vec3 × Vec3 × Vec3 × Vec3)
    (tex : UV × UV × UV × UV) (ti : Option UV) (ci : Option Color4) :
    (push_quad nrm buf verts tex ti ci).positions =
      buf.positions ++
        [verts.1, verts.2.1, verts.2.2.1, verts.1, verts.2.2.1, verts.2.2.2] := by
  simp [push_quad, push_triangle]

lemma push_quad_normals_length (buf : MeshBuffers) (verts : Vec3 × Vec3 × Vec3 × Vec3)
    (tex : UV × UV × UV × UV) (ti : Option UV) (ci : Option Color4) :
    (push_quad nrm buf verts tex ti ci).normals.length = buf.normals.length + 6 := by
  simp [push_quad, push_triangle]

lemma push_quad_uvs_length (buf : MeshBuffers) (verts : Vec3 × Vec3 × Vec3 × Vec3)
    (tex : UV × UV × UV × UV) (ti : Option UV) (ci : Option Color4) :
    (push_quad nrm buf verts tex ti ci).uvs.length = buf.uvs.length + 6 := by
  simp [push_quad, push_triangle]

lemma push_quad_tile_layers (buf : MeshBuffers) (verts : Vec3 × Vec3 × Vec3 × Vec3)
    (tex : UV × UV × UV × UV) (ti : Option UV) (ci : Option Color4) :
    (push_quad nrm buf verts tex ti ci).tile_layers =
      buf.tile_layers.map (fun ls => ls ++ List.replicate 6 (ti.getD ((0 : ℚ), (0 : ℚ)))) := by
  simp [push_quad, push_triangle]

lemma push_quad_colors (buf : MeshBuffers) (verts : Vec3 × Vec3 × Vec3 × Vec3)
    (tex : UV × UV × UV × UV) (ti : Option UV) (ci : Option Color4) :
    (push_quad nrm buf verts tex ti ci).colors =
      buf.colors.map (fun cs =>
        cs ++ List.replicate 6 (ci.getD ((-1 : ℚ), (0 : ℚ), (0 : ℚ), (0 : ℚ)))) := by
  simp [push_quad, push_triangle]

lemma push_quad_indices (buf : MeshBuffers) (verts : Vec3 × Vec3 × Vec3 × Vec3)
    (tex : UV × UV × UV × UV) (ti : Option UV) (ci : Option Color4) :
    (push_quad nrm buf verts tex ti ci).indices =
      buf.indices ++ [buf.next_index, buf.next_index + 1, buf.next_index + 2,
        buf.next_index + 3, buf.next_index + 4, buf.next_index + 5] := by
  simp [push_quad, push_triangle, Nat.add_assoc]

lemma push_quad_next_index (buf : MeshBuffers) (verts : Vec3 × Vec3 × Vec3 × Vec3)
    (tex : UV × UV × UV × UV) (ti : Option UV) (ci : Option Color4) :
    (push_quad nrm buf verts tex ti ci).next_index = buf.next_index + 6 := by
  simp [push_quad, push_triangle, Nat.add_assoc]

/-- add_side_face with the direction match collapsed (all four arms agree)
and the color rewrite spelled out. -/
lemma add_side_face_eq (buf : MeshBuffers) (top_a top_b bottom_a bottom_b : Vec3)
    (direction : RampDirection) (tile_layer : Option ℚ) (seam_height : ℚ)
    (bottom_info : Option Color4) (force_cliff : Bool) :
    add_side_face nrm buf top_a top_b bottom_a bottom_b direction tile_layer
        seam_height bottom_info force_cliff =
      if |top_a.y - bottom_a.y| < EPS ∧ |top_b.y - bottom_b.y| < EPS then buf
      else
        push_quad nrm buf (top_a, top_b, bottom_b, bottom_a) zeroTex
          (tile_layer.map (fun layer => (layer, seam_height)))
          (match bottom_info with
           | some info => some (info.1, info.2.1, if force_cliff then (1 : ℚ) else 0, info.2.2.2)
           | none => if force_cliff then some ((-1 : ℚ), (0 : ℚ), (1 : ℚ), (0 : ℚ)) else none) := by
  unfold add_side_face
  cases direction <;> rfl

end MeshOpLemmas

/-- The structural invariant all mesh buffers maintain: every present
per-vertex channel has the same length as positions, the index list is the
identity sequence, and next_index tracks the vertex count. -/
def BufWF (b : MeshBuffers) : Prop :=
  b.normals.length = b.positions.length ∧
  b.uvs.length = b.positions.length ∧
  (∀ ls, b.tile_layers = some ls → ls.length = b.positions.length) ∧
  (∀ cs, b.colors = some cs → cs.length = b.positions.length) ∧
  b.indices = List.range b.positions.length ∧
  b.next_index = b.positions.length

lemma default_BufWF : BufWF {} := by
  refine ⟨rfl, rfl, ?_, ?_, rfl, rfl⟩ <;> intro l h <;> cases h

lemma with_tile_types_BufWF : BufWF MeshBuffers.with_tile_types := by
  unfold MeshBuffers.with_tile_types
  refine ⟨rfl, rfl, ?_, ?_, rfl, rfl⟩ <;>
    (intro l h; injection h with h2; rw [← h2]; rfl)

lemma range_append_six (n : Nat) :
    List.range n ++ [n, n + 1, n + 2, n + 3, n + 4, n + 5] = List.range (n + 6) := by
  have h : n + 6 = n + 1 + 1 + 1 + 1 + 1 + 1 := by omega
  rw [h]
  simp [List.range_succ, List.append_assoc]

section MeshWfLemmas

variable (nrm : Vec3 → Vec3)

lemma push_quad_BufWF (buf : MeshBuffers) (verts : Vec3 × Vec3 × Vec3 × Vec3)
    (tex : UV × UV × UV × UV) (ti : Option UV) (ci : Option Color4)
    (h : BufWF buf) : BufWF (push_quad nrm buf verts tex ti ci) := by
  obtain ⟨h1, h2, h3, h4, h5, h6⟩ := h
  refine ⟨?_, ?_, ?_, ?_, ?_, ?_⟩
  · rw [push_quad_normals_length, push_quad_positions]
    simp [h1]
  · rw [push_quad_uvs_length, push_quad_positions]
    simp [h2]
  · intro ls hls
    rw [push_quad_tile_layers] at hls
    rcases hmem : buf.tile_layers with _ | ls0
    · rw [hmem] at hls; cases hls
    · rw [hmem] at hls
      injection hls with hls
      rw [← hls, push_quad_positions]
      simp [h3 ls0 hmem]
  · intro cs hcs
    rw [push_quad_colors] at hcs
    rcases hmem : buf.colors with _ | cs0
    · rw [hmem] at hcs; cases hcs
    · rw [hmem] at hcs
      injection hcs with hcs
      rw [← hcs, push_quad_positions]
      simp [h4 cs0 hmem]
  · rw [push_quad_indices, push_quad_positions, h5, h6]
    simp [range_append_six]
  · rw [push_quad_next_index, push_quad_positions, h6]
    simp

lemma add_side_face_BufWF (buf : MeshBuffers) (top_a top_b bottom_a bottom_b : Vec3)
    (direction : RampDirection) (tile_layer : Option ℚ) (seam_height : ℚ)
    (bottom_info : Option Color4) (force_cliff : Bool)
    (h : BufWF buf) :
    BufWF (add_side_face nrm buf top_a top_b bottom_a bottom_b direction tile_layer
      seam_height bottom_info force_cliff) := by
  rw [add_side_face_eq]
  split_ifs <;> first
    | exact h
    | exact push_quad_BufWF nrm _ _ _ _ _ h

lemma append_tile_geometry_BufWF (m : TileMap) (cache : List Corners) (x y : Nat)
    (buf : MeshBuffers) (lay : Option ℚ) (h : BufWF buf) :
    BufWF (append_tile_geometry nrm m cache x y buf lay) := by
  unfold append_tile_geometry
  unfold append_east_face append_west_face append_south_face append_north_face append_top_face
  exact add_side_face_BufWF nrm _ _ _ _ _ _ _ _ _ _
    (add_side_face_BufWF nrm _ _ _ _ _ _ _ _ _ _
      (add_side_face_BufWF nrm _ _ _ _ _ _ _ _ _ _
        (add_side_face_BufWF nrm _ _ _ _ _ _ _ _ _ _
          (push_quad_BufWF nrm _ _ _ _ _ h))))

end MeshWfLemmas

/-- Claim C8: a side face contributes nothing when both top and bottom edge
heights agree within EPS = 1e-4 (the add_side_face guard), and otherwise
contributes exactly one quad: six vertices and six index entries, i.e. two
triangles. -/
theorem c8_side_face_skip (nrm : Vec3 → Vec3) (buf : MeshBuffers)
    (top_a top_b bottom_a bottom_b : Vec3) (direction : RampDirection)
    (tile_layer : Option ℚ) (seam_height : ℚ) (bottom_info : Option Color4)
    (force_cliff : Bool) :
    if |top_a.y - bottom_a.y| < EPS ∧ |top_b.y - bottom_b.y| < EPS then
      add_side_face nrm buf top_a top_b bottom_a bottom_b direction tile_layer
        seam_height bottom_info force_cliff = buf
    else
      (add_side_face nrm buf top_a top_b bottom_a bottom_b direction tile_layer
        seam_height bottom_info force_cliff).positions.length =
          buf.positions.length + 6 ∧
      (add_side_face nrm buf top_a top_b bottom_a bottom_b direction tile_layer
        seam_height bottom_info force_cliff).indices.length =
          buf.indices.length + 6 := by
  rw [add_side_face_eq]
  split_ifs with hc
  · rfl
  all_goals rw [push_quad_positions, push_quad_indices]
  all_goals simp

/-- Claim C7: the blend mask is the sentinel record [-2, bits, 0, 0] where
bit 0/1/2/3 is set exactly when the North/South/West/East neighbor is
in bounds and its cached maximum corner height is within HEIGHT_EPSILON of
top_height; an off-grid neighbor contributes no bit. -/
theorem c7_top_blend_mask_bits (m : TileMap) (cache : List Corners)
    (x y : Nat) (top_height : ℚ) :
    ∃ bits : Nat,
      tile_top_blend_mask m cache x y top_height =
        ((-2 : ℚ), (bits : ℚ), (0 : ℚ), (0 : ℚ)) ∧
      (bits.testBit 0 ↔ 0 < y ∧
        |top_height - max_corner_height (cacheAt cache (m.idx x (y - 1)))| < HEIGHT_EPSILON) ∧
      (bits.testBit 1 ↔ y + 1 < m.height ∧
        |top_height - max_corner_height (cacheAt cache (m.idx x (y + 1)))| < HEIGHT_EPSILON) ∧
      (bits.testBit 2 ↔ 0 < x ∧
        |top_height - max_corner_height (cacheAt cache (m.idx (x - 1) y))| < HEIGHT_EPSILON) ∧
      (bits.testBit 3 ↔ x + 1 < m.width ∧
        |top_height - max_corner_height (cacheAt cache (m.idx (x + 1) y))| < HEIGHT_EPSILON) ∧
      bits < 16 := by
  unfold tile_top_blend_mask
  by_cases h1 : 0 < y ∧
      |top_height - max_corner_height (cacheAt cache (m.idx x (y - 1)))| < HEIGHT_EPSILON <;>
    by_cases h2 : y + 1 < m.height ∧
        |top_height - max_corner_height (cacheAt cache (m.idx x (y + 1)))| < HEIGHT_EPSILON <;>
      by_cases h3 : 0 < x ∧
          |top_height - max_corner_height (cacheAt cache (m.idx (x - 1) y))| < HEIGHT_EPSILON <;>
        by_cases h4 : x + 1 < m.width ∧
            |top_height - max_corner_height (cacheAt cache (m.idx (x + 1) y))| < HEIGHT_EPSILON <;>
          (simp only [h1, h2, h3, h4, if_true, if_false, ite_true, ite_false,
            eq_self_iff_true, not_true, not_false_iff] <;>
            refine ⟨_, rfl, ?_, ?_, ?_, ?_, ?_⟩ <;>
              simp [h1, h2, h3, h4] <;> decide)

/-! ## Color-channel structure (claim C6) -/

lemma nat_cast_ne_neg_two (n : Nat) : (n : ℚ) ≠ -2 := by
  intro h
  have h0 : (0 : ℚ) ≤ (n : ℚ) := Nat.cast_nonneg n
  rw [h] at h0
  norm_num at h0

lemma blend_mask_fst (m : TileMap) (cache : List Corners) (x y : Nat) (t : ℚ) :
    (tile_top_blend_mask m cache x y t).1 = -2 := rfl

lemma bottom_info_fst_ne (o : Option ℚ) (s : ℚ)
    (hno : ∀ v, o = some v → v ≠ (-2 : ℚ)) :
    ∀ q : Color4,
      Option.map (fun layer => (layer, s, (0 : ℚ), (0 : ℚ))) o = some q →
        q.1 ≠ (-2 : ℚ) := by
  intro q hq
  rcases o with _ | v
  · cases hq
  · simp only [Option.map_some'] at hq
    injection hq with hq
    rw [← hq]
    exact hno v rfl

section ColorLemmas

variable (nrm : Vec3 → Vec3)

lemma add_side_face_colors_first (buf : MeshBuffers)
    (top_a top_b bottom_a bottom_b : Vec3) (direction : RampDirection)
    (tile_layer : Option ℚ) (seam_height : ℚ) (bottom_info : Option Color4)
    (force_cliff : Bool) (cs : List Color4) (hc : buf.colors = some cs)
    (hbi : ∀ q : Color4, bottom_info = some q → q.1 ≠ (-2 : ℚ)) :
    ∃ R : List Color4,
      (add_side_face nrm buf top_a top_b bottom_a bottom_b direction tile_layer
        seam_height bottom_info force_cliff).colors = some (cs ++ R) ∧
      ∀ p ∈ R, p.1 ≠ (-2 : ℚ) := by
  rcases bottom_info with _ | info
  · rw [add_side_face_eq]
    by_cases h : |top_a.y - bottom_a.y| < EPS ∧ |top_b.y - bottom_b.y| < EPS
    · rw [if_pos h]
      exact ⟨[], by simp [hc], by simp⟩
    · rw [if_neg h, push_quad_colors]
      cases force_cliff
      · refine ⟨List.replicate 6 ((-1 : ℚ), (0 : ℚ), (0 : ℚ), (0 : ℚ)), by simp [hc], ?_⟩
        intro p hp
        rw [List.eq_of_mem_replicate hp]
        norm_num
      · refine ⟨List.replicate 6 ((-1 : ℚ), (0 : ℚ), (1 : ℚ), (0 : ℚ)), by simp [hc], ?_⟩
        intro p hp
        rw [List.eq_of_mem_replicate hp]
        norm_num
  · rw [add_side_face_eq]
    by_cases h : |top_a.y - bottom_a.y| < EPS ∧ |top_b.y - bottom_b.y| < EPS
    · rw [if_pos h]
      exact ⟨[], by simp [hc], by simp⟩
    · rw [if_neg h, push_quad_colors]
      refine ⟨List.replicate 6
        (info.1, info.2.1, if force_cliff then (1 : ℚ) else 0, info.2.2.2),
        by simp [hc], ?_⟩
      intro p hp
      rw [List.eq_of_mem_replicate hp]
      exact hbi info rfl

lemma append_top_face_colors (m : TileMap) (cache : List Corners) (x y : Nat)
    (buf : MeshBuffers) (L : ℚ) (cs : List Color4) (hc : buf.colors = some cs) :
    (append_top_face nrm m cache x y buf (some L)).colors =
      some (cs ++ List.replicate 6
        (tile_top_blend_mask m cache x y
          (max_corner_height (cacheAt cache (m.idx x y))))) := by
  unfold append_top_face
  rw [push_quad_colors]
  simp [hc]

lemma append_north_face_colors (m : TileMap) (cache : List Corners) (x y : Nat)
    (buf : MeshBuffers) (lay : Option ℚ) (cs : List Color4)
    (hc : buf.colors = some cs) :
    ∃ R : List Color4,
      (append_north_face nrm m cache x y buf lay).colors = some (cs ++ R) ∧
      ∀ p ∈ R, p.1 ≠ (-2 : ℚ) := by
  unfold append_north_face
  refine add_side_face_colors_first nrm _ _ _ _ _ _ _ _ _ _ cs hc ?_
  refine bottom_info_fst_ne _ _ ?_
  intro v hv
  by_cases hy : 0 < y
  · rw [if_pos hy] at hv
    have hv2 : some (((m.get x (y - 1)).tile_type.as_index : ℚ)) = some v := hv
    injection hv2 with hv2
    rw [← hv2]
    exact nat_cast_ne_neg_two _
  · rw [if_neg hy] at hv
    exact Option.noConfusion hv

lemma append_south_face_colors (m : TileMap) (cache : List Corners) (x y : Nat)
    (buf : MeshBuffers) (lay : Option ℚ) (cs : List Color4)
    (hc : buf.colors = some cs) :
    ∃ R : List Color4,
      (append_south_face nrm m cache x y buf lay).colors = some (cs ++ R) ∧
      ∀ p ∈ R, p.1 ≠ (-2 : ℚ) := by
  unfold append_south_face
  refine add_side_face_colors_first nrm _ _ _ _ _ _ _ _ _ _ cs hc ?_
  refine bottom_info_fst_ne _ _ ?_
  intro v hv
  by_cases hy : y + 1 < m.height
  · rw [if_pos hy] at hv
    have hv2 : some (((m.get x (y + 1)).tile_type.as_index : ℚ)) = some v := hv
    injection hv2 with hv2
    rw [← hv2]
    exact nat_cast_ne_neg_two _
  · rw [if_neg hy] at hv
    exact Option.noConfusion hv

lemma append_west_face_colors (m : TileMap) (cache : List Corners) (x y : Nat)
    (buf : MeshBuffers) (lay : Option ℚ) (cs : List Color4)
    (hc : buf.colors = some cs) :
    ∃ R : List Color4,
      (append_west_face nrm m cache x y buf lay).colors = some (cs ++ R) ∧
      ∀ p ∈ R, p.1 ≠ (-2 : ℚ) := by
  unfold append_west_face
  refine add_side_face_colors_first nrm _ _ _ _ _ _ _ _ _ _ cs hc ?_
  refine bottom_info_fst_ne _ _ ?_
  intro v hv
  by_cases hx : 0 < x
  · rw [if_pos hx] at hv
    have hv2 : some (((m.get (x - 1) y).tile_type.as_index : ℚ)) = some v := hv
    injection hv2 with hv2
    rw [← hv2]
    exact nat_cast_ne_neg_two _
  · rw [if_neg hx] at hv
    exact Option.noConfusion hv

lemma append_east_face_colors (m : TileMap) (cache : List Corners) (x y : Nat)
    (buf : MeshBuffers) (lay : Option ℚ) (cs : List Color4)
    (hc : buf.colors = some cs) :
    ∃ R : List Color4,
      (append_east_face nrm m cache x y buf lay).colors = some (cs ++ R) ∧
      ∀ p ∈ R, p.1 ≠ (-2 : ℚ) := by
  unfold append_east_face
  refine add_side_face_colors_first nrm _ _ _ _ _ _ _ _ _ _ cs hc ?_
  refine bottom_info_fst_ne _ _ ?_
  intro v hv
  by_cases hx : x + 1 < m.width
  · rw [if_pos hx] at hv
    have hv2 : some (((m.get (x + 1) y).tile_type.as_index : ℚ)) = some v := hv
    injection hv2 with hv2
    rw [← hv2]
    exact nat_cast_ne_neg_two _
  · rw [if_neg hx] at hv
    exact Option.noConfusion hv

lemma append_tile_geometry_colors (m : TileMap) (cache : List Corners)
    (x y : Nat) (buf : MeshBuffers) (L : ℚ) (cs : List Color4)
    (hc : buf.colors = some cs) :
    ∃ side : List Color4,
      (append_tile_geometry nrm m cache x y buf (some L)).colors =
        some (cs ++ (List.replicate 6
          (tile_top_blend_mask m cache x y
            (max_corner_height (cacheAt cache (m.idx x y)))) ++ side)) ∧
      ∀ p ∈ side, p.1 ≠ (-2 : ℚ) := by
  unfold append_tile_geometry
  have h0 := append_top_face_colors nrm m cache x y buf L cs hc
  obtain ⟨R1, h1, h1p⟩ := append_north_face_colors nrm m cache x y _ (some L) _ h0
  obtain ⟨R2, h2, h2p⟩ := append_south_face_colors nrm m cache x y _ (some L) _ h1
  obtain ⟨R3, h3, h3p⟩ := append_west_face_colors nrm m cache x y _ (some L) _ h2
  obtain ⟨R4, h4, h4p⟩ := append_east_face_colors nrm m cache x y _ (some L) _ h3
  refine ⟨R1 ++ R2 ++ R3 ++ R4, ?_, ?_⟩
  · rw [h4]
    simp [List.append_assoc]
  · intro p hp
    rcases List.mem_append.mp hp with hp | hp4
    · rcases List.mem_append.mp hp with hp | hp3
      · rcases List.mem_append.mp hp with hp1 | hp2
        · exact h1p p hp1
        · exact h2p p hp2
      · exact h3p p hp3
    · exact h4p p hp4

end ColorLemmas

/-- Push the pair of Option.map updates of the populate loop through the fold. -/
lemma foldl_prod_map {α β γ : Type} (l : List γ) (f : γ → α → α) (g : γ → β → β) :
    ∀ (a : Option α) (b : Option β),
    l.foldl (fun acc p => (acc.1.map (f p), acc.2.map (g p))) (a, b) =
      (a.map (fun v => l.foldl (fun v p => f p v) v),
       b.map (fun v => l.foldl (fun v p => g p v) v)) := by
  induction l with
  | nil => intro a b; simp
  | cons c l ih =>
    intro a b
    rw [List.foldl_cons, ih]
    simp only [List.foldl_cons, Option.map_map]
    rfl

/-- The color channel of a mesh as the list it carries (empty when absent). -/
def meshColors (mesh : Mesh) : List Color4 :=
  match mesh.color with
  | some (VertexAttributeValues.Float32x4 cs) => cs
  | _ => []

lemma meshColors_into_mesh (b : MeshBuffers) (cs : List Color4)
    (hc : b.colors = some cs) : meshColors b.into_mesh = cs := by
  unfold meshColors MeshBuffers.into_mesh
  rw [hc]
  cases hemp : cs.isEmpty
  · simp [hemp]
  · rw [List.isEmpty_iff_eq_nil] at hemp
    subst hemp
    simp

lemma combined_fold_colors (nrm : Vec3 → Vec3) (m : TileMap) (cache : List Corners)
    (coords : List (Nat × Nat)) :
    ∀ (cbuf : MeshBuffers) (cs : List Color4),
    cbuf.colors = some cs →
    ∃ sides : List (List Color4),
      sides.length = coords.length ∧
      (coords.foldl (fun v p => populate_step_combined nrm m cache p v) cbuf).colors =
        some (cs ++ (coords.zip sides).flatMap (fun cz =>
          List.replicate 6 (tile_top_blend_mask m cache cz.1.1 cz.1.2
            (max_corner_height (cacheAt cache (m.idx cz.1.1 cz.1.2)))) ++ cz.2)) ∧
      ∀ s ∈ sides, ∀ p ∈ s, p.1 ≠ (-2 : ℚ) := by
  induction coords with
  | nil =>
    intro cbuf cs hc
    exact ⟨[], rfl, by simpa using hc, by simp⟩
  | cons c coords ih =>
    intro cbuf cs hc
    rw [List.foldl_cons]
    obtain ⟨side, hcol, hside⟩ :=
      append_tile_geometry_colors nrm m cache c.1 c.2 cbuf
        (((m.get c.1 c.2).tile_type.as_index : ℚ)) _ hc
    have hstep : (populate_step_combined nrm m cache c cbuf).colors =
        some (cs ++ (List.replicate 6
          (tile_top_blend_mask m cache c.1 c.2
            (max_corner_height (cacheAt cache (m.idx c.1 c.2)))) ++ side)) := by
      unfold populate_step_combined
      exact hcol
    obtain ⟨sides, hlen, hfold, hsp⟩ :=
      ih (populate_step_combined nrm m cache c cbuf) _ hstep
    refine ⟨side :: sides, by simp [hlen], ?_, ?_⟩
    · rw [hfold]
      simp [List.append_assoc]
    · intro s hs
      rcases List.mem_cons.mp hs with rfl | hs2
      · exact hside
      · exact hsp s hs2

/-- Claim C6: in the combined mesh the color channel is exactly, tile by tile
in loop order, six copies of the program's top-face blend-mask record (whose
first component is the sentinel -2) followed by that tile's side-face
records, and every side-face record has first component different from -2,
so the two sentinel families never collide. -/
theorem c6_sentinel_families (nrm : Vec3 → Vec3) (m : TileMap) :
    ∃ sides : List (List Color4),
      sides.length = (coordList m).length ∧
      meshColors (build_combined_mesh nrm m) =
        ((coordList m).zip sides).flatMap (fun cz =>
          List.replicate 6 (tile_top_blend_mask m (build_corner_cache m) cz.1.1 cz.1.2
            (max_corner_height
              (cacheAt (build_corner_cache m) (m.idx cz.1.1 cz.1.2)))) ++ cz.2) ∧
      (∀ x y t, (tile_top_blend_mask m (build_corner_cache m) x y t).1 = (-2 : ℚ)) ∧
      ∀ s ∈ sides, ∀ p ∈ s, p.1 ≠ (-2 : ℚ) := by
  unfold build_combined_mesh populate_mesh_buffers
  split_ifs with hdeg
  · have hc0 : coordList m = [] := by
      unfold coordList
      rcases hdeg with h | h <;> simp [h]
    refine ⟨[], by simp [hc0], ?_, fun x y t => rfl, by simp⟩
    rw [hc0]
    simp [meshColors, MeshBuffers.into_mesh, MeshBuffers.with_tile_types]
  · rw [foldl_prod_map]
    simp only [Option.map_none', Option.map_some']
    obtain ⟨sides, hlen, hcol, hsp⟩ :=
      combined_fold_colors nrm m (build_corner_cache m) (coordList m)
        MeshBuffers.with_tile_types [] (by rfl)
    simp only [List.nil_append] at hcol
    refine ⟨sides, hlen, ?_, fun x y t => rfl, hsp⟩
    exact meshColors_into_mesh _ _ hcol

/-! ## Per-type versus combined vertex counts (claim C4) -/

section DeltaLemmas

variable (nrm : Vec3 → Vec3)

lemma add_side_face_delta (buf bufc : MeshBuffers) (ta tb ba bb : Vec3)
    (dir : RampDirection) (L : ℚ) (seam : ℚ) (bi bic : Option Color4)
    (fc fcc : Bool) (ls : List UV) (hl : bufc.tile_layers = some ls) :
    ∃ R : List UV,
      (add_side_face nrm bufc ta tb ba bb dir (some L) seam bic fcc).tile_layers =
        some (ls ++ R) ∧
      (add_side_face nrm bufc ta tb ba bb dir (some L) seam bic fcc).positions.length =
        bufc.positions.length + R.length ∧
      (add_side_face nrm buf ta tb ba bb dir none seam bi fc).positions.length =
        buf.positions.length + R.length ∧
      ∀ p ∈ R, p.1 = L := by
  rw [add_side_face_eq, add_side_face_eq]
  by_cases h : |ta.y - ba.y| < EPS ∧ |tb.y - bb.y| < EPS
  · rw [if_pos h, if_pos h]
    exact ⟨[], by simp [hl], by simp, by simp, by simp⟩
  · rw [if_neg h, if_neg h, push_quad_tile_layers, push_quad_positions, push_quad_positions]
    refine ⟨List.replicate 6 (L, seam), by simp [hl], by simp, by simp, ?_⟩
    intro p hp
    rw [List.eq_of_mem_replicate hp]

lemma append_top_face_delta (m : TileMap) (cache : List Corners) (x y : Nat)
    (buf bufc : MeshBuffers) (L : ℚ) (ls : List UV)
    (hl : bufc.tile_layers = some ls) :
    ∃ R : List UV,
      (append_top_face nrm m cache x y bufc (some L)).tile_layers = some (ls ++ R) ∧
      (append_top_face nrm m cache x y bufc (some L)).positions.length =
        bufc.positions.length + R.length ∧
      (append_top_face nrm m cache x y buf none).positions.length =
        buf.positions.length + R.length ∧
      ∀ p ∈ R, p.1 = L := by
  unfold append_top_face
  refine ⟨List.replicate 6 (L, max_corner_height (cacheAt cache (m.idx x y))),
    ?_, ?_, ?_, ?_⟩
  · rw [push_quad_tile_layers]
    simp [hl]
  · rw [push_quad_positions]
    simp
  · rw [push_quad_positions]
    simp
  · intro p hp
    rw [List.eq_of_mem_replicate hp]

lemma append_north_face_delta (m : TileMap) (cache : List Corners) (x y : Nat)
    (buf bufc : MeshBuffers) (L : ℚ) (ls : List UV)
    (hl : bufc.tile_layers = some ls) :
    ∃ R : List UV,
      (append_north_face nrm m cache x y bufc (some L)).tile_layers = some (ls ++ R) ∧
      (append_north_face nrm m cache x y bufc (some L)).positions.length =
        bufc.positions.length + R.length ∧
      (append_north_face nrm m cache x y buf none).positions.length =
        buf.positions.length + R.length ∧
      ∀ p ∈ R, p.1 = L := by
  unfold append_north_face
  exact add_side_face_delta nrm _ _ _ _ _ _ _ _ _ _ _ _ _ _ hl

lemma append_south_face_delta (m : TileMap) (cache : List Corners) (x y : Nat)
    (buf bufc : MeshBuffers) (L : ℚ) (ls : List UV)
    (hl : bufc.tile_layers = some ls) :
    ∃ R : List UV,
      (append_south_face nrm m cache x y bufc (some L)).tile_layers = some (ls ++ R) ∧
      (append_south_face nrm m cache x y bufc (some L)).positions.length =
        bufc.positions.length + R.length ∧
      (append_south_face nrm m cache x y buf none).positions.length =
        buf.positions.length + R.length ∧
      ∀ p ∈ R, p.1 = L := by
  unfold append_south_face
  exact add_side_face_delta nrm _ _ _ _ _ _ _ _ _ _ _ _ _ _ hl

lemma append_west_face_delta (m : TileMap) (cache : List Corners) (x y : Nat)
    (buf bufc : MeshBuffers) (L : ℚ) (ls : List UV)
    (hl : bufc.tile_layers = some ls) :
    ∃ R : List UV,
      (append_west_face nrm m cache x y bufc (some L)).tile_layers = some (ls ++ R) ∧
      (append_west_face nrm m cache x y bufc (some L)).positions.length =
        bufc.positions.length + R.length ∧
      (append_west_face nrm m cache x y buf none).positions.length =
        buf.positions.length + R.length ∧
      ∀ p ∈ R, p.1 = L := by
  unfold append_west_face
  exact add_side_face_delta nrm _ _ _ _ _ _ _ _ _ _ _ _ _ _ hl

lemma append_east_face_delta (m : TileMap) (cache : List Corners) (x y : Nat)
    (buf bufc : MeshBuffers) (L : ℚ) (ls : List UV)
    (hl : bufc.tile_layers = some ls) :
    ∃ R : List UV,
      (append_east_face nrm m cache x y bufc (some L)).tile_layers = some (ls ++ R) ∧
      (append_east_face nrm m cache x y bufc (some L)).positions.length =
        bufc.positions.length + R.length ∧
      (append_east_face nrm m cache x y buf none).positions.length =
        buf.positions.length + R.length ∧
      ∀ p ∈ R, p.1 = L := by
  unfold append_east_face
  exact add_side_face_delta nrm _ _ _ _ _ _ _ _ _ _ _ _ _ _ hl

lemma append_tile_geometry_delta (m : TileMap) (cache : List Corners) (x y : Nat)
    (buf bufc : MeshBuffers) (L : ℚ) (ls : List UV)
    (hl : bufc.tile_layers = some ls) :
    ∃ R : List UV,
      (append_tile_geometry nrm m cache x y bufc (some L)).tile_layers = some (ls ++ R) ∧
      (append_tile_geometry nrm m cache x y bufc (some L)).positions.length =
        bufc.positions.length + R.length ∧
      (append_tile_geometry nrm m cache x y buf none).positions.length =
        buf.positions.length + R.length ∧
      ∀ p ∈ R, p.1 = L := by
  unfold append_tile_geometry
  obtain ⟨R0, hl0, hc0, hb0, hR0⟩ := append_top_face_delta nrm m cache x y buf bufc L ls hl
  obtain ⟨R1, hl1, hc1, hb1, hR1⟩ := append_north_face_delta nrm m cache x y _ _ L _ hl0
  obtain ⟨R2, hl2, hc2, hb2, hR2⟩ := append_south_face_delta nrm m cache x y _ _ L _ hl1
  obtain ⟨R3, hl3, hc3, hb3, hR3⟩ := append_west_face_delta nrm m cache x y _ _ L _ hl2
  obtain ⟨R4, hl4, hc4, hb4, hR4⟩ := append_east_face_delta nrm m cache x y _ _ L _ hl3
  refine ⟨R0 ++ R1 ++ R2 ++ R3 ++ R4, ?_, ?_, ?_, ?_⟩
  · rw [hl4]
    simp [List.append_assoc]
  · rw [hc4, hc3, hc2, hc1, hc0]
    simp only [List.length_append]
    omega
  · rw [hb4, hb3, hb2, hb1, hb0]
    simp only [List.length_append]
    omega
  · intro p hp
    rcases List.mem_append.mp hp with hp | hp4
    · rcases List.mem_append.mp hp with hp | hp3
      · rcases List.mem_append.mp hp with hp | hp2
        · rcases List.mem_append.mp hp with hp0 | hp1
          · exact hR0 p hp0
          · exact hR1 p hp1
        · exact hR2 p hp2
      · exact hR3 p hp3
    · exact hR4 p hp4

end DeltaLemmas

/-- Vertex count of the per-type HashMap entry for one surface type. -/
def ptCount (ptf : TileType → Option MeshBuffers) (t : TileType) : Nat :=
  match ptf t with
  | some b => b.positions.length
  | none => 0

/-- Number of layer-channel records carrying the index of surface type t. -/
def layerFilterCount (ls : List UV) (t : TileType) : Nat :=
  (ls.filter (fun p => decide (p.1 = (t.as_index : ℚ)))).length

lemma as_index_cast_inj (t s : TileType)
    (h : (t.as_index : ℚ) = (s.as_index : ℚ)) : t = s := by
  cases t <;> cases s <;> first | rfl | (exfalso; revert h; decide)

lemma layerFilterCount_append_all (ls R : List UV) (s t : TileType)
    (hR : ∀ p ∈ R, p.1 = (s.as_index : ℚ)) :
    layerFilterCount (ls ++ R) t =
      layerFilterCount ls t + (if t = s then R.length else 0) := by
  unfold layerFilterCount
  rw [List.filter_append, List.length_append]
  congr 1
  split_ifs with hts
  · subst hts
    rw [List.filter_eq_self.mpr]
    intro a ha
    rw [hR a ha]
    simp
  · rw [List.filter_eq_nil.mpr, List.length_nil]
    intro a ha
    rw [hR a ha]
    simp only [decide_eq_true_eq]
    intro hcast
    exact hts (as_index_cast_inj s t hcast).symm

lemma ptCount_getD (ptf : TileType → Option MeshBuffers) (t : TileType) :
    ((ptf t).getD {}).positions.length = ptCount ptf t := by
  unfold ptCount
  rcases ptf t with _ | b <;> rfl

lemma ptCount_some (ptf : TileType → Option MeshBuffers) (t : TileType)
    (b : MeshBuffers) (h : ptf t = some b) : ptCount ptf t = b.positions.length := by
  unfold ptCount
  rw [h]

section C4Fold

variable (nrm : Vec3 → Vec3)

lemma c4_fold (m : TileMap) (cache : List Corners) (coords : List (Nat × Nat)) :
    ∀ (ptf : TileType → Option MeshBuffers) (cbuf : MeshBuffers) (ls : List UV),
    cbuf.tile_layers = some ls →
    (∀ t, ptCount ptf t = layerFilterCount ls t) →
    ∃ ls' : List UV,
      (coords.foldl (fun v p => populate_step_combined nrm m cache p v) cbuf).tile_layers =
        some ls' ∧
      ∀ t, ptCount (coords.foldl (fun v p => populate_step_per_type nrm m cache p v) ptf) t =
        layerFilterCount ls' t := by
  induction coords with
  | nil =>
    intro ptf cbuf ls hla hinv
    exact ⟨ls, hla, hinv⟩
  | cons c coords ih =>
    intro ptf cbuf ls hla hinv
    rw [List.foldl_cons, List.foldl_cons]
    obtain ⟨R, hl, hpc, hpb, hR⟩ := append_tile_geometry_delta nrm m cache c.1 c.2
      ((ptf ((m.get c.1 c.2).tile_type)).getD {}) cbuf
      (((m.get c.1 c.2).tile_type.as_index : ℚ)) ls hla
    apply ih
    · show (populate_step_combined nrm m cache c cbuf).tile_layers = some (ls ++ R)
      unfold populate_step_combined
      exact hl
    · intro t
      have hstep_at : (populate_step_per_type nrm m cache c ptf) ((m.get c.1 c.2).tile_type) =
          some (append_tile_geometry nrm m cache c.1 c.2
            ((ptf ((m.get c.1 c.2).tile_type)).getD {}) none) := by
        unfold populate_step_per_type
        rw [if_pos rfl]
      have hnew : ptCount (populate_step_per_type nrm m cache c ptf) t =
          ptCount ptf t + (if t = (m.get c.1 c.2).tile_type then R.length else 0) := by
        by_cases hteq : t = (m.get c.1 c.2).tile_type
        · subst hteq
          rw [ptCount_some _ _ _ hstep_at, hpb, ptCount_getD, if_pos rfl]
        · rw [if_neg hteq]
          unfold ptCount populate_step_per_type
          rw [if_neg hteq]
          rfl
      rw [hnew, layerFilterCount_append_all ls R ((m.get c.1 c.2).tile_type) t hR, hinv t]

end C4Fold

/-- Vertex count of the per-type mesh for a surface type (0 when the type has
no mesh). -/
def perTypeVertexCount (meshes : TileType → Option Mesh) (t : TileType) : Nat :=
  match meshes t with
  | some mesh =>
    match mesh.position with
    | some (VertexAttributeValues.Float32x3 ps) => ps.length
    | _ => 0
  | none => 0

/-- Number of combined-mesh vertices whose layer channel records surface
type t. -/
def combinedLayerCount (mesh : Mesh) (t : TileType) : Nat :=
  match mesh.uv1 with
  | some (VertexAttributeValues.Float32x2 ls) => layerFilterCount ls t
  | _ => 0

lemma perTypeVertexCount_map (f : TileType → Option MeshBuffers) (t : TileType) :
    perTypeVertexCount (fun s => (f s).map MeshBuffers.into_mesh) t = ptCount f t := by
  unfold perTypeVertexCount ptCount
  rcases hf : f t with _ | b
  · simp [hf]
  · simp [hf, MeshBuffers.into_mesh]

lemma combinedLayerCount_into_mesh (b : MeshBuffers) (ls : List UV) (t : TileType)
    (hl : b.tile_layers = some ls) :
    combinedLayerCount b.into_mesh t = layerFilterCount ls t := by
  unfold combinedLayerCount MeshBuffers.into_mesh
  rw [hl]
  cases hemp : ls.isEmpty
  · simp [hemp]
  · rw [List.isEmpty_iff_eq_nil] at hemp
    subst hemp
    simp [layerFilterCount]

lemma build_map_meshes_eq (nrm : Vec3 → Vec3) (m : TileMap)
    (hdeg : ¬(m.width = 0 ∨ m.height = 0)) :
    build_map_meshes nrm m = fun t =>
      (((coordList m).foldl
          (fun v p => populate_step_per_type nrm m (build_corner_cache m) p v)
          (fun _ => none) t).map MeshBuffers.into_mesh) := by
  unfold build_map_meshes populate_mesh_buffers
  rw [if_neg hdeg, foldl_prod_map]
  rfl

lemma build_combined_mesh_eq (nrm : Vec3 → Vec3) (m : TileMap)
    (hdeg : ¬(m.width = 0 ∨ m.height = 0)) :
    build_combined_mesh nrm m =
      ((coordList m).foldl
        (fun v p => populate_step_combined nrm m (build_corner_cache m) p v)
        MeshBuffers.with_tile_types).into_mesh := by
  unfold build_combined_mesh populate_mesh_buffers
  rw [if_neg hdeg, foldl_prod_map]
  rfl

/-- Claim C4: for every grid and surface type, the per-type mesh of
build_map_meshes has exactly as many vertices as the combined mesh of
build_combined_mesh has vertices whose per-vertex layer channel records that
surface type. -/
theorem c4_per_type_combined_vertex_counts (nrm : Vec3 → Vec3) (m : TileMap)
    (t : TileType) :
    perTypeVertexCount (build_map_meshes nrm m) t =
      combinedLayerCount (build_combined_mesh nrm m) t := by
  by_cases hdeg : m.width = 0 ∨ m.height = 0
  · unfold build_map_meshes build_combined_mesh populate_mesh_buffers
    rw [if_pos hdeg, if_pos hdeg]
    rfl
  · rw [build_map_meshes_eq nrm m hdeg, build_combined_mesh_eq nrm m hdeg]
    obtain ⟨ls2, hls2, hcount⟩ := c4_fold nrm m (build_corner_cache m) (coordList m)
      (fun _ => none) MeshBuffers.with_tile_types [] rfl (fun _ => rfl)
    rw [combinedLayerCount_into_mesh _ ls2 t hls2,
      perTypeVertexCount_map ((coordList m).foldl
        (fun v p => populate_step_per_type nrm m (build_corner_cache m) p v)
        (fun _ => none)) t]
    exact hcount t

/-! ## Channel alignment and identity index buffers (claim C10) -/

/-- What claim C10 asserts of a produced mesh: position, normal and UV lists
are present with equal lengths, the optional layer and color channels match
that length when present, and the index buffer is exactly the identity
sequence 0..n-1 over the n positions (omitted entirely when n = 0, since the
source skips inserting an empty index buffer). -/
def mesh_channels_aligned (mesh : Mesh) : Prop :=
  ∃ ps ns us,
    mesh.position = some (VertexAttributeValues.Float32x3 ps) ∧
    mesh.normal = some (VertexAttributeValues.Float32x3 ns) ∧
    mesh.uv0 = some (VertexAttributeValues.Float32x2 us) ∧
    ns.length = ps.length ∧
    us.length = ps.length ∧
    (mesh.uv1 = none ∨ ∃ ls, mesh.uv1 = some (VertexAttributeValues.Float32x2 ls) ∧
      ls.length = ps.length) ∧
    (mesh.color = none ∨ ∃ cs, mesh.color = some (VertexAttributeValues.Float32x4 cs) ∧
      cs.length = ps.length) ∧
    mesh.indices =
      (if ps.isEmpty then none else some (MeshIndices.U32 (List.range ps.length)))

lemma into_mesh_aligned (b : MeshBuffers) (h : BufWF b) :
    mesh_channels_aligned b.into_mesh := by
  obtain ⟨h1, h2, h3, h4, h5, h6⟩ := h
  unfold mesh_channels_aligned MeshBuffers.into_mesh
  dsimp only
  refine ⟨b.positions, b.normals, b.uvs, rfl, rfl, rfl, h1, h2, ?_, ?_, ?_⟩
  · rcases hl : b.tile_layers with _ | ls
    · exact Or.inl rfl
    · cases hemp : ls.isEmpty
      · refine Or.inr ⟨ls, ?_, h3 ls hl⟩
        simp [hemp]
      · exact Or.inl (by simp [hemp])
  · rcases hl : b.colors with _ | cs
    · exact Or.inl rfl
    · cases hemp : cs.isEmpty
      · refine Or.inr ⟨cs, ?_, h4 cs hl⟩
        simp [hemp]
      · exact Or.inl (by simp [hemp])
  · rw [h5]
    rcases hps : b.positions with _ | ⟨p0, ps2⟩
    · simp
    · have hne : ps2.length + 1 ≠ 0 := Nat.succ_ne_zero _
      simp [List.isEmpty_iff_eq_nil, List.range_eq_nil, hne]

section C10Fold

variable (nrm : Vec3 → Vec3)

lemma per_type_fold_wf (m : TileMap) (cache : List Corners)
    (coords : List (Nat × Nat)) :
    ∀ ptf : TileType → Option MeshBuffers,
    (∀ t b, ptf t = some b → BufWF b) →
    ∀ t b,
      (coords.foldl (fun v p => populate_step_per_type nrm m cache p v) ptf) t = some b →
      BufWF b := by
  induction coords with
  | nil =>
    intro ptf h
    exact h
  | cons c coords ih =>
    intro ptf h
    rw [List.foldl_cons]
    apply ih
    intro t b hb
    simp only [populate_step_per_type] at hb
    split_ifs at hb with hteq
    · injection hb with hb
      rw [← hb]
      apply append_tile_geometry_BufWF
      rcases hptf : ptf ((m.get c.1 c.2).tile_type) with _ | b0
      · exact default_BufWF
      · exact h _ b0 hptf
    · exact h t b hb

lemma combined_fold_wf (m : TileMap) (cache : List Corners)
    (coords : List (Nat × Nat)) :
    ∀ cb : MeshBuffers, BufWF cb →
      BufWF (coords.foldl (fun v p => populate_step_combined nrm m cache p v) cb) := by
  induction coords with
  | nil =>
    intro cb h
    exact h
  | cons c coords ih =>
    intro cb h
    rw [List.foldl_cons]
    exact ih _ (append_tile_geometry_BufWF nrm m cache c.1 c.2 cb _ h)

end C10Fold

/-- Claim C10: every mesh produced by build_map_meshes and the mesh produced
by build_combined_mesh have position, normal and UV channels of one common
length n, layer and color channels of length n whenever present, and an index
buffer that is exactly the identity sequence 0..n-1 (absent only when n = 0),
so each vertex is referenced by exactly one triangle corner. -/
theorem c10_mesh_channel_invariants (nrm : Vec3 → Vec3) (m : TileMap) :
    (∀ t mesh, build_map_meshes nrm m t = some mesh → mesh_channels_aligned mesh) ∧
    mesh_channels_aligned (build_combined_mesh nrm m) := by
  by_cases hdeg : m.width = 0 ∨ m.height = 0
  · constructor
    · intro t mesh hmesh
      unfold build_map_meshes populate_mesh_buffers at hmesh
      rw [if_pos hdeg] at hmesh
      exact Option.noConfusion hmesh
    · unfold build_combined_mesh populate_mesh_buffers
      rw [if_pos hdeg]
      exact into_mesh_aligned _ with_tile_types_BufWF
  · constructor
    · intro t mesh hmesh
      rw [build_map_meshes_eq nrm m hdeg] at hmesh
      rcases hentry : ((coordList m).foldl
          (fun v p => populate_step_per_type nrm m (build_corner_cache m) p v)
          (fun _ => none)) t with _ | b
      · simp only [hentry, Option.map_none'] at hmesh
        exact Option.noConfusion hmesh
      · simp only [hentry, Option.map_some'] at hmesh
        injection hmesh with hmesh
        rw [← hmesh]
        refine into_mesh_aligned b
          (per_type_fold_wf nrm m (build_corner_cache m) (coordList m)
            (fun _ => none) ?_ t b hentry)
        intro t0 b0 h0
        exact Option.noConfusion h0
    · rw [build_combined_mesh_eq nrm m hdeg]
      exact into_mesh_aligned _
        (combined_fold_wf nrm m (build_corner_cache m) (coordList m)
          MeshBuffers.with_tile_types with_tile_types_BufWF)

/-- The trivial normalisation stand-in used by concrete witnesses. -/
def nrm0 : Vec3 → Vec3 := fun _ => ⟨0, 0, 0⟩

def c10mesh : Mesh := (build_map_meshes nrm0 c3Map TileType.Grass).getD {}

theorem c10_witness :
    build_map_meshes nrm0 c3Map TileType.Grass = some c10mesh ∧
    mesh_channels_aligned c10mesh :=
  ⟨rfl, (c10_mesh_channel_invariants nrm0 c3Map).1 TileType.Grass c10mesh rfl⟩

/-! ## Weight-map rasterizer (src/terrain.rs, mod splatmap) -/

inductive TextureFormat where
  | Rgba8Unorm
  | Other
deriving DecidableEq, Repr

structure Extent3d where
  width : Nat
  height : Nat
  depth_or_array_layers : Nat
deriving DecidableEq, Repr

inductive FilterMode where
  | Linear
  | Nearest
deriving DecidableEq, Repr

inductive AddressMode where
  | ClampToEdge
  | Repeat
deriving DecidableEq, Repr

structure ImageSamplerDescriptor where
  mag_filter : FilterMode := FilterMode.Nearest
  min_filter : FilterMode := FilterMode.Nearest
  mipmap_filter : FilterMode := FilterMode.Nearest
  address_mode_u : AddressMode := AddressMode.ClampToEdge
  address_mode_v : AddressMode := AddressMode.ClampToEdge
deriving DecidableEq, Repr

inductive ImageSampler where
  | Default
  | Descriptor : ImageSamplerDescriptor → ImageSampler
deriving DecidableEq, Repr

/-- The bevy Image surface restricted to the fields this module reads and
writes: texture size and format, the raw byte data, and the descriptor fields
configure_image touches.  usage holds the wgpu bitflags value
(TEXTURE_BINDING = 4, COPY_DST = 2). -/
structure Image where
  size : Extent3d
  format : TextureFormat
  data : List Nat
  mip_level_count : Nat
  usage : Nat
  sampler : ImageSampler
deriving DecidableEq, Repr

def CHANNELS : Nat := 4

def splatmap_extent_from_map (m : TileMap) : Extent3d :=
  { width := max m.width 1, height := max m.height 1, depth_or_array_layers := 1 }

def configure_image (img : Image) : Image :=
  { img with
    mip_level_count := 1,
    usage := 4 + 2,
    sampler := ImageSampler.Descriptor
      { mag_filter := FilterMode.Linear,
        min_filter := FilterMode.Linear,
        mipmap_filter := FilterMode.Nearest,
        address_mode_u := AddressMode.ClampToEdge,
        address_mode_v := AddressMode.ClampToEdge } }

/-- Image::new_fill with a 4-byte pixel: every texel of the extent carries a
copy of the pixel. -/
def Image.new_fill (extent : Extent3d) (pixel : List Nat)
    (format : TextureFormat) : Image :=
  { size := extent,
    format := format,
    data := (List.replicate
      (extent.width * extent.height * extent.depth_or_array_layers) pixel).join,
    mip_level_count := 1,
    usage := 4 + 2,
    sampler := ImageSampler.Default }

/-- Vec::resize(n, 0): truncate or zero-pad to length n. -/
def listResize (l : List Nat) (n : Nat) : List Nat :=
  l.take n ++ List.replicate (n - l.length) 0

/-- The one-hot pixel of a tile (the source guards the store with
layer < CHANNELS). -/
def pixelOf (m : TileMap) (x y : Nat) : List Nat :=
  let layer := (m.get x y).tile_type.as_index
  if layer < CHANNELS then (List.replicate CHANNELS 0).set layer 255
  else List.replicate CHANNELS 0

/-- copy_from_slice of a block at byte offset i. -/
def spliceAt (data : List Nat) (i : Nat) (p : List Nat) : List Nat :=
  data.take i ++ p ++ data.drop (i + p.length)

/-- The double pixel loop of splatmap::write. -/
def splat_write_pixels (m : TileMap) (width : Nat) (data : List Nat) : List Nat :=
  (List.range m.height).foldl
    (fun d y =>
      (List.range m.width).foldl
        (fun d x => spliceAt d ((y * width + x) * CHANNELS) (pixelOf m x y)) d)
    data

/-- The body of splatmap::write after the size/format check: configure the
image, resize the data when its length is off, then either zero-fill (for a
degenerate grid) or write every tile pixel. -/
def splat_write_body (m : TileMap) (image : Image) : Image :=
  let extent := splatmap_extent_from_map m
  let image := configure_image image
  let width := extent.width
  let required_len := width * extent.height * CHANNELS
  let image :=
    if image.data.length ≠ required_len then
      { image with data := listResize image.data required_len }
    else image
  if m.width = 0 ∨ m.height = 0 then
    { image with data := List.replicate image.data.length 0 }
  else
    { image with data := splat_write_pixels m width image.data }

/-- splatmap::create.  The source calls write on the freshly created image;
that image always has matching extent and format, so the call is exactly the
write body. -/
def splatmap_create (m : TileMap) : Image :=
  splat_write_body m
    (configure_image
      (Image.new_fill (splatmap_extent_from_map m) [0, 0, 0, 0]
        TextureFormat.Rgba8Unorm))

/-- splatmap::write: regenerate wholesale on a size or format mismatch,
otherwise run the in-place body. -/
def splatmap_write (m : TileMap) (image : Image) : Image :=
  if image.size ≠ splatmap_extent_from_map m ∨
      image.format ≠ TextureFormat.Rgba8Unorm then
    splatmap_create m
  else
    splat_write_body m image

/-- The row-major one-hot raster the loops produce. -/
def splatRaster (m : TileMap) : List Nat :=
  (List.range m.height).flatMap
    (fun y => (List.range m.width).flatMap (fun x => pixelOf m x y))

lemma pixelOf_length (m : TileMap) (x y : Nat) : (pixelOf m x y).length = 4 := by
  unfold pixelOf CHANNELS
  dsimp only
  split_ifs <;> simp

lemma spliceAt_length (d p : List Nat) (i : Nat) (h : i + p.length ≤ d.length) :
    (spliceAt d i p).length = d.length := by
  unfold spliceAt
  simp only [List.length_append, List.length_take, List.length_drop]
  omega

lemma spliceAt_take (d p : List Nat) (i : Nat) (h : i + p.length ≤ d.length) :
    (spliceAt d i p).take (i + p.length) = d.take i ++ p := by
  unfold spliceAt
  rw [List.take_left']
  rw [List.length_append, List.length_take]
  omega

lemma spliceAt_drop (d p : List Nat) (i k : Nat) (h : i + p.length ≤ d.length)
    (hk : i + p.length ≤ k) :
    (spliceAt d i p).drop k = d.drop k := by
  unfold spliceAt
  have hlen : (d.take i ++ p).length = i + p.length := by
    rw [List.length_append, List.length_take]
    omega
  rw [List.drop_append_eq_append_drop, List.drop_eq_nil_of_le (by omega),
    List.nil_append, hlen, List.drop_drop]
  congr 1
  omega

lemma splat_row_eq (m : TileMap) (width y : Nat) :
    ∀ (n s : Nat) (d : List Nat), (y * width + s + n) * 4 ≤ d.length →
    (List.range' s n).foldl
        (fun d x => spliceAt d ((y * width + x) * 4) (pixelOf m x y)) d =
      d.take ((y * width + s) * 4) ++
        (List.range' s n).flatMap (fun x => pixelOf m x y) ++
        d.drop ((y * width + s + n) * 4) := by
  intro n
  induction n with
  | zero =>
    intro s d hle
    simp
  | succ n ih =>
    intro s d hle
    have hp4 := pixelOf_length m s y
    set P := y * width with hP
    rw [List.range'_succ, List.foldl_cons, List.flatMap_cons]
    have hsl : (spliceAt d ((P + s) * 4) (pixelOf m s y)).length = d.length := by
      apply spliceAt_length
      rw [hp4]
      omega
    rw [ih (s + 1) _ (by rw [hsl]; omega)]
    have e1 : (P + (s + 1)) * 4 = (P + s) * 4 + (pixelOf m s y).length := by
      rw [hp4]
      ring
    rw [e1, spliceAt_take _ _ _ (by rw [hp4]; omega),
      spliceAt_drop _ _ _ _ (by rw [hp4]; omega) (by rw [hp4]; omega)]
    have e3 : (P + (s + 1) + n) * 4 = (P + s + (n + 1)) * 4 := by ring
    rw [e3]
    simp [List.append_assoc]

lemma flatMap_pixel_length (m : TileMap) (y : Nat) (l : List Nat) :
    (l.flatMap (fun x => pixelOf m x y)).length = l.length * 4 := by
  induction l with
  | nil => simp
  | cons a l ih =>
    rw [List.flatMap_cons, List.length_append, ih, pixelOf_length, List.length_cons]
    ring

lemma splat_rows_eq (m : TileMap) :
    ∀ (k t : Nat) (d : List Nat), ((t + k) * m.width) * 4 ≤ d.length →
    (List.range' t k).foldl
        (fun d y => (List.range m.width).foldl
          (fun d x => spliceAt d ((y * m.width + x) * 4) (pixelOf m x y)) d) d =
      d.take ((t * m.width) * 4) ++
        (List.range' t k).flatMap
          (fun y => (List.range m.width).flatMap (fun x => pixelOf m x y)) ++
        d.drop (((t + k) * m.width) * 4) := by
  intro k
  induction k with
  | zero =>
    intro t d hle
    simp
  | succ k ih =>
    intro t d hle
    rw [List.range'_succ, List.foldl_cons, List.flatMap_cons]
    have hb1 : (t * m.width + 0 + m.width) * 4 ≤ d.length := by
      calc (t * m.width + 0 + m.width) * 4 = ((t + 1) * m.width) * 4 := by ring
        _ ≤ ((t + (k + 1)) * m.width) * 4 := by
            apply Nat.mul_le_mul_right
            exact Nat.mul_le_mul_right _ (by omega)
        _ ≤ d.length := hle
    have hflat : ((List.range' 0 m.width).flatMap (fun x => pixelOf m x t)).length =
        m.width * 4 := by
      rw [flatMap_pixel_length, List.length_range']
    have hb2 : (t * m.width) * 4 +
        ((List.range' 0 m.width).flatMap (fun x => pixelOf m x t)).length ≤ d.length := by
      rw [hflat]
      calc (t * m.width) * 4 + m.width * 4 = (t * m.width + 0 + m.width) * 4 := by ring
        _ ≤ d.length := hb1
    rw [List.range_eq_range']
    rw [splat_row_eq m m.width t m.width 0 d hb1]
    have hsplice : d.take ((t * m.width + 0) * 4) ++
        (List.range' 0 m.width).flatMap (fun x => pixelOf m x t) ++
        d.drop ((t * m.width + 0 + m.width) * 4) =
          spliceAt d ((t * m.width) * 4)
            ((List.range' 0 m.width).flatMap (fun x => pixelOf m x t)) := by
      unfold spliceAt
      rw [hflat]
      have e1 : (t * m.width + 0) * 4 = (t * m.width) * 4 := by ring
      have e2 : (t * m.width + 0 + m.width) * 4 = (t * m.width) * 4 + m.width * 4 := by
        ring
      rw [e1, e2]
    rw [hsplice]
    have hsl : (spliceAt d ((t * m.width) * 4)
        ((List.range' 0 m.width).flatMap (fun x => pixelOf m x t))).length = d.length :=
      spliceAt_length _ _ _ hb2
    have hb3 : ((t + 1 + k) * m.width) * 4 ≤
        (spliceAt d ((t * m.width) * 4)
          ((List.range' 0 m.width).flatMap (fun x => pixelOf m x t))).length := by
      rw [hsl]
      calc ((t + 1 + k) * m.width) * 4 = ((t + (k + 1)) * m.width) * 4 := by ring
        _ ≤ d.length := hle
    rw [List.range_eq_range'] at ih
    rw [ih (t + 1) _ hb3]
    have e3 : ((t + 1) * m.width) * 4 = (t * m.width) * 4 +
        ((List.range' 0 m.width).flatMap (fun x => pixelOf m x t)).length := by
      rw [hflat]
      ring
    rw [e3, spliceAt_take _ _ _ hb2]
    have hb4 : (t * m.width) * 4 +
        ((List.range' 0 m.width).flatMap (fun x => pixelOf m x t)).length ≤
          ((t + 1 + k) * m.width) * 4 := by
      rw [hflat]
      calc (t * m.width) * 4 + m.width * 4 = ((t + 1) * m.width) * 4 := by ring
        _ ≤ ((t + 1 + k) * m.width) * 4 := by
            apply Nat.mul_le_mul_right
            exact Nat.mul_le_mul_right _ (by omega)
    rw [spliceAt_drop _ _ _ _ hb2 hb4]
    have e4 : ((t + 1 + k) * m.width) * 4 = ((t + (k + 1)) * m.width) * 4 := by ring
    rw [e4]
    simp [List.append_assoc]

lemma splat_write_pixels_eq (m : TileMap) (d : List Nat)
    (hd : (m.height * m.width) * 4 ≤ d.length) :
    splat_write_pixels m m.width d =
      d.take 0 ++ splatRaster m ++ d.drop ((m.height * m.width) * 4) := by
  unfold splat_write_pixels splatRaster CHANNELS
  rw [List.range_eq_range' m.height]
  rw [splat_rows_eq m m.height 0 d (by simpa using hd)]
  simp [List.range_eq_range']

lemma flatMap_rows_length (m : TileMap) (l : List Nat) :
    (l.flatMap (fun y => (List.range m.width).flatMap (fun x => pixelOf m x y))).length =
      l.length * (m.width * 4) := by
  induction l with
  | nil => simp
  | cons a l ih =>
    rw [List.flatMap_cons, List.length_append, ih, flatMap_pixel_length,
      List.length_range, List.length_cons]
    ring

lemma splatRaster_length (m : TileMap) :
    (splatRaster m).length = m.height * (m.width * 4) := by
  unfold splatRaster
  rw [flatMap_rows_length, List.length_range]

lemma splatRaster_slice (m : TileMap) (x y : Nat) (hx : x < m.width)
    (hy : y < m.height) :
    ((splatRaster m).drop ((y * m.width + x) * 4)).take 4 = pixelOf m x y := by
  unfold splatRaster
  rw [List.range_eq_range']
  have h1 : m.height = m.height - y + y := by omega
  rw [h1]
  have happ : List.range' 0 (m.height - y + y) =
      List.range' 0 y ++ List.range' (0 + 1 * y) (m.height - y) :=
    (List.range'_append 0 y (m.height - y) 1).symm
  rw [happ, List.flatMap_append]
  have hpre : ((List.range' 0 y).flatMap
      (fun y => (List.range m.width).flatMap (fun x => pixelOf m x y))).length =
        y * (m.width * 4) := by
    rw [flatMap_rows_length, List.length_range']
  rw [List.drop_append_eq_append_drop, List.drop_eq_nil_of_le (by rw [hpre]; nlinarith),
    List.nil_append, hpre]
  have h2 : m.height - y = (m.height - y - 1) + 1 := by omega
  have h3 : 0 + 1 * y = y := by ring
  rw [h2, h3, List.range'_succ, List.flatMap_cons]
  have hrow : ((List.range m.width).flatMap (fun x0 => pixelOf m x0 y)).length =
      m.width * 4 := by
    rw [flatMap_pixel_length, List.length_range]
  rw [List.drop_append_eq_append_drop]
  have hdropped : (y * m.width + x) * 4 - y * (m.width * 4) = x * 4 := by
    have : (y * m.width + x) * 4 = y * (m.width * 4) + x * 4 := by ring
    omega
  rw [hdropped]
  -- split the row at pixel x
  rw [List.range_eq_range']
  have h4 : m.width = m.width - x + x := by omega
  rw [h4]
  have happ2 : List.range' 0 (m.width - x + x) =
      List.range' 0 x ++ List.range' (0 + 1 * x) (m.width - x) :=
    (List.range'_append 0 x (m.width - x) 1).symm
  rw [happ2, List.flatMap_append]
  have hpre2 : ((List.range' 0 x).flatMap (fun x0 => pixelOf m x0 y)).length = x * 4 := by
    rw [flatMap_pixel_length, List.length_range']
  rw [List.drop_append_eq_append_drop, List.drop_eq_nil_of_le (by rw [hpre2]),
    List.nil_append, hpre2, Nat.sub_self, List.drop_zero]
  have h5 : m.width - x = (m.width - x - 1) + 1 := by omega
  have h6 : 0 + 1 * x = x := by ring
  rw [h5, h6, List.range'_succ, List.flatMap_cons]
  rw [List.append_assoc, List.take_append_eq_append_take,
    List.take_of_length_le (by simp [pixelOf_length]),
    pixelOf_length, Nat.sub_self, List.take_zero, List.append_nil]

lemma pixelOf_one_hot (m : TileMap) (x y : Nat) :
    pixelOf m x y =
      (List.replicate 4 0).set ((m.get x y).tile_type.as_index) 255 := by
  unfold pixelOf CHANNELS
  dsimp only
  rw [if_pos]
  cases (m.get x y).tile_type <;> decide

lemma one_hot_entries (idx i : Nat) (hidx : idx < 4) (hi : i < 4) :
    ((List.replicate 4 (0 : Nat)).set idx 255).getD i 0 =
      if i = idx then 255 else 0 := by
  interval_cases idx <;> interval_cases i <;> decide

lemma listResize_length (l : List Nat) (n : Nat) : (listResize l n).length = n := by
  unfold listResize
  simp only [List.length_append, List.length_take, List.length_replicate]
  omega

lemma configure_image_data (img : Image) : (configure_image img).data = img.data := rfl

lemma splat_write_body_size (m : TileMap) (img : Image) :
    (splat_write_body m img).size = img.size ∧
    (splat_write_body m img).format = img.format := by
  unfold splat_write_body configure_image
  dsimp only
  split_ifs <;> exact ⟨rfl, rfl⟩

lemma splat_write_body_data (m : TileMap) (img : Image) :
    (splat_write_body m img).data =
      if m.width = 0 ∨ m.height = 0 then
        List.replicate (max m.width 1 * max m.height 1 * 4) 0
      else splatRaster m := by
  unfold splat_write_body splatmap_extent_from_map CHANNELS
  dsimp only
  rw [configure_image_data]
  have hnd : ∀ d : List Nat, d.length = max m.width 1 * max m.height 1 * 4 →
      ¬(m.width = 0 ∨ m.height = 0) →
      splat_write_pixels m (max m.width 1) d = splatRaster m := by
    intro d hdlen hdeg
    have hw : max m.width 1 = m.width := Nat.max_eq_left (by omega)
    have hh : max m.height 1 = m.height := Nat.max_eq_left (by omega)
    rw [hw]
    have hle : (m.height * m.width) * 4 ≤ d.length := by
      rw [hdlen, hw, hh]
      have : m.height * m.width * 4 = m.width * m.height * 4 := by ring
      omega
    rw [splat_write_pixels_eq m d hle]
    have hdrop : d.drop ((m.height * m.width) * 4) = [] := by
      apply List.drop_eq_nil_of_le
      rw [hdlen, hw, hh]
      have : m.height * m.width * 4 = m.width * m.height * 4 := by ring
      omega
    rw [hdrop]
    simp
  split_ifs with hdeg hlen hlen
  · dsimp only
    rw [listResize_length]
  · dsimp only
    rw [configure_image_data, not_ne_iff.mp hlen]
  · dsimp only
    exact hnd _ (listResize_length _ _) hdeg
  · dsimp only
    rw [configure_image_data]
    exact hnd _ (not_ne_iff.mp hlen) hdeg

lemma splat_write_body_spec (m : TileMap) (img : Image) :
    (splat_write_body m img).size = img.size ∧
    (splat_write_body m img).format = img.format ∧
    (splat_write_body m img).data.length = max m.width 1 * max m.height 1 * 4 ∧
    ((m.width = 0 ∨ m.height = 0) →
      (splat_write_body m img).data =
        List.replicate (max m.width 1 * max m.height 1 * 4) 0) ∧
    (∀ x y, x < m.width → y < m.height →
      (((splat_write_body m img).data.drop ((y * m.width + x) * 4)).take 4) =
        (List.replicate 4 0).set ((m.get x y).tile_type.as_index) 255) := by
  obtain ⟨hsz, hf⟩ := splat_write_body_size m img
  have hdata := splat_write_body_data m img
  refine ⟨hsz, hf, ?_, ?_, ?_⟩
  · rw [hdata]
    split_ifs with hdeg
    · simp
    · rw [splatRaster_length]
      have hw : max m.width 1 = m.width := Nat.max_eq_left (by omega)
      have hh : max m.height 1 = m.height := Nat.max_eq_left (by omega)
      rw [hw, hh]
      ring
  · intro hdeg
    rw [hdata, if_pos hdeg]
  · intro x y hx hy
    have hdeg : ¬(m.width = 0 ∨ m.height = 0) := by omega
    rw [hdata, if_neg hdeg, splatRaster_slice m x y hx hy, pixelOf_one_hot]

/-- A degenerate grid with zero width but nonzero height. -/
def c9MapDeg : TileMap := { width := 0, height := 5, tiles := [] }

/-- Claim C9 counterexample. The grid 0 x 5 is degenerate (width = 0), yet
the rasterizer produces a 1 x 5 zero-filled raster, not the 1 x 1 raster the
claim asserts: extent_from_map clamps each dimension separately to
max(dim, 1). -/
theorem c9_counterexample :
    (c9MapDeg.width = 0 ∨ c9MapDeg.height = 0) ∧
    (splatmap_create c9MapDeg).size =
      { width := 1, height := 5, depth_or_array_layers := 1 } ∧
    (splatmap_create c9MapDeg).size ≠
      { width := 1, height := 1, depth_or_array_layers := 1 } ∧
    (splatmap_create c9MapDeg).data = List.replicate 20 0 := by
  refine ⟨by decide, by decide, by decide, by decide⟩

/-- Claim C9 as amended: the raster is exactly max(width,1) x max(height,1)
pixels of 4 one-byte channels; every tile pixel is the one-hot encoding of
its surface-type index; a degenerate grid (width = 0 or height = 0) yields a
zero-filled raster of that clamped extent (1 x 1 only when both dimensions
are clamped); a size or format mismatch regenerates the image wholesale via
create, and a matching image is updated in place keeping its size and
format. -/
theorem c9_splatmap_raster (m : TileMap) (img : Image) :
    (splatmap_write m img).size = splatmap_extent_from_map m ∧
    (splatmap_write m img).format = TextureFormat.Rgba8Unorm ∧
    (splatmap_write m img).data.length = max m.width 1 * max m.height 1 * 4 ∧
    ((m.width = 0 ∨ m.height = 0) →
      (splatmap_write m img).data =
        List.replicate (max m.width 1 * max m.height 1 * 4) 0) ∧
    (∀ x y, x < m.width → y < m.height →
      (((splatmap_write m img).data.drop ((y * m.width + x) * 4)).take 4) =
        (List.replicate 4 0).set ((m.get x y).tile_type.as_index) 255) ∧
    ((img.size ≠ splatmap_extent_from_map m ∨
        img.format ≠ TextureFormat.Rgba8Unorm) →
      splatmap_write m img = splatmap_create m) ∧
    (img.size = splatmap_extent_from_map m →
      img.format = TextureFormat.Rgba8Unorm →
      (splatmap_write m img).size = img.size ∧
      (splatmap_write m img).format = img.format) := by
  unfold splatmap_write
  split_ifs with hmis
  · obtain ⟨hsz, hf, hlen, hdeg, hpix⟩ := splat_write_body_spec m
      (configure_image
        (Image.new_fill (splatmap_extent_from_map m) [0, 0, 0, 0]
          TextureFormat.Rgba8Unorm))
    unfold splatmap_create
    refine ⟨hsz.trans rfl, hf.trans rfl, hlen, hdeg, hpix, fun _ => rfl, ?_⟩
    intro h1 h2
    rcases hmis with h | h
    · exact absurd h1 h
    · exact absurd h2 h
  · push_neg at hmis
    obtain ⟨hs2, hf2⟩ := hmis
    obtain ⟨hsz, hf, hlen, hdeg, hpix⟩ := splat_write_body_spec m img
    refine ⟨hsz.trans hs2, hf.trans hf2, hlen, hdeg, hpix, ?_, fun _ _ => ⟨hsz, hf⟩⟩
    intro hbad
    rcases hbad with h | h
    · exact absurd hs2 h
    · exact absurd hf2 h

/-- A 1 x 1 grid and a deliberately mismatched image for the C9 witness. -/
def c9Map1 : TileMap :=
  { width := 1, height := 1, tiles := [defaultTile] }

def img0 : Image :=
  { size := { width := 0, height := 0, depth_or_array_layers := 0 },
    format := TextureFormat.Other, data := [], mip_level_count := 0,
    usage := 0, sampler := ImageSampler.Default }

theorem c9_witness :
    (((splatmap_write c9Map1 img0).data.drop ((0 * c9Map1.width + 0) * 4)).take 4) =
      (List.replicate 4 0).set ((c9Map1.get 0 0).tile_type.as_index) 255 :=
  (c9_splatmap_raster c9Map1 img0).2.2.2.2.1 0 0 (by decide) (by decide)

/-! ## Binary asset writer (src/export.rs) -/

def VERTEX_BUFFER_TARGET : Nat := 34962
def INDEX_BUFFER_TARGET : Nat := 34963
def FLOAT_COMPONENT : Nat := 5126
def UNSIGNED_INT_COMPONENT : Nat := 5125

/-- u32::to_le_bytes, with the `as u32` truncation built into the byte
arithmetic. -/
def u32LE (n : Nat) : List Nat :=
  [n % 256, n / 256 % 256, n / 256 ^ 2 % 256, n / 256 ^ 3 % 256]

/-- Little-endian decoding of a 4-byte field. -/
def leDec4 (bs : List Nat) : Nat :=
  bs.getD 0 0 + 256 * bs.getD 1 0 + 256 ^ 2 * bs.getD 2 0 + 256 ^ 3 * bs.getD 3 0

/-- pad_to_four: append the pad byte until the length is a multiple of four
(the while loop appends exactly (4 - len % 4) % 4 bytes). -/
def pad_to_four (pad : Nat) (buffer : List Nat) : List Nat :=
  buffer ++ List.replicate ((4 - buffer.length % 4) % 4) pad

lemma u32LE_length (n : Nat) : (u32LE n).length = 4 := rfl

lemma u32LE_leDec4 (n : Nat) : leDec4 (u32LE n) = n % 2 ^ 32 := by
  unfold u32LE leDec4
  simp only [List.getD]
  norm_num
  omega

lemma pad_to_four_mod (pad : Nat) (buffer : List Nat) :
    (pad_to_four pad buffer).length % 4 = 0 := by
  unfold pad_to_four
  rw [List.length_append, List.length_replicate]
  omega

lemma pad_to_four_spec (pad : Nat) (buffer : List Nat) :
    ∃ k, k < 4 ∧ pad_to_four pad buffer = buffer ++ List.replicate k pad := by
  exact ⟨(4 - buffer.length % 4) % 4, by omega, rfl⟩

structure BufferView where
  buffer : Nat
  byteOffset : Nat
  byteLength : Nat
  target : Nat
deriving DecidableEq

structure Accessor where
  bufferView : Nat
  componentType : Nat
  count : Nat
  type : String
  min3 : Option (WithTop ℚ × WithTop ℚ × WithTop ℚ) := none
  max3 : Option (WithBot ℚ × WithBot ℚ × WithBot ℚ) := none
deriving DecidableEq

/-- bounds_vec3: per-axis min/max folded from plus and minus infinity, which
WithTop and WithBot supply exactly. -/
def bounds_vec3 (values : List Vec3) :
    (WithTop ℚ × WithTop ℚ × WithTop ℚ) × (WithBot ℚ × WithBot ℚ × WithBot ℚ) :=
  values.foldl
    (fun acc v =>
      ((min acc.1.1 ((v.x : ℚ) : WithTop ℚ),
        min acc.1.2.1 ((v.y : ℚ) : WithTop ℚ),
        min acc.1.2.2 ((v.z : ℚ) : WithTop ℚ)),
       (max acc.2.1 ((v.x : ℚ) : WithBot ℚ),
        max acc.2.2.1 ((v.y : ℚ) : WithBot ℚ),
        max acc.2.2.2 ((v.z : ℚ) : WithBot ℚ))))
    ((⊤, ⊤, ⊤), (⊥, ⊥, ⊥))

structure BufferWriter where
  data : List Nat := []
  buffer_views : List BufferView := []
  accessors : List Accessor := []
deriving DecidableEq

/-- BufferWriter::align: pad the arena with zero bytes to a 4-byte boundary
(the same loop as pad_to_four with pad byte 0). -/
def BufferWriter.align (w : BufferWriter) : BufferWriter :=
  { w with data := pad_to_four 0 w.data }

def BufferWriter.push_vec3 (w : BufferWriter) (f32LE : ℚ → List Nat)
    (values : List Vec3) (include_bounds : Bool) :
    Except String (BufferWriter × Nat) :=
  if values.isEmpty then Except.error "Vector attribute cannot be empty"
  else
    let w := w.align
    let byte_offset := w.data.length
    let bytes := values.flatMap (fun v => f32LE v.x ++ f32LE v.y ++ f32LE v.z)
    let view_index := w.buffer_views.length
    let view : BufferView :=
      { buffer := 0, byteOffset := byte_offset, byteLength := bytes.length,
        target := VERTEX_BUFFER_TARGET }
    let accessor_index := w.accessors.length
    let accessor : Accessor :=
      { bufferView := view_index, componentType := FLOAT_COMPONENT,
        count := values.length, type := "VEC3",
        min3 := if include_bounds then some (bounds_vec3 values).1 else none,
        max3 := if include_bounds then some (bounds_vec3 values).2 else none }
    Except.ok
      ({ data := w.data ++ bytes,
         buffer_views := w.buffer_views ++ [view],
         accessors := w.accessors ++ [accessor] }, accessor_index)

def BufferWriter.push_vec2 (w : BufferWriter) (f32LE : ℚ → List Nat)
    (values : List UV) : Except String (BufferWriter × Nat) :=
  if values.isEmpty then Except.error "Vector attribute cannot be empty"
  else
    let w := w.align
    let byte_offset := w.data.length
    let bytes := values.flatMap (fun v => f32LE v.1 ++ f32LE v.2)
    let view_index := w.buffer_views.length
    let view : BufferView :=
      { buffer := 0, byteOffset := byte_offset, byteLength := bytes.length,
        target := VERTEX_BUFFER_TARGET }
    let accessor_index := w.accessors.length
    let accessor : Accessor :=
      { bufferView := view_index, componentType := FLOAT_COMPONENT,
        count := values.length, type := "VEC2" }
    Except.ok
      ({ data := w.data ++ bytes,
         buffer_views := w.buffer_views ++ [view],
         accessors := w.accessors ++ [accessor] }, accessor_index)

def BufferWriter.push_vec4 (w : BufferWriter) (f32LE : ℚ → List Nat)
    (values : List Color4) : Except String (BufferWriter × Nat) :=
  if values.isEmpty then Except.error "Vector attribute cannot be empty"
  else
    let w := w.align
    let byte_offset := w.data.length
    let bytes := values.flatMap
      (fun v => f32LE v.1 ++ f32LE v.2.1 ++ f32LE v.2.2.1 ++ f32LE v.2.2.2)
    let view_index := w.buffer_views.length
    let view : BufferView :=
      { buffer := 0, byteOffset := byte_offset, byteLength := bytes.length,
        target := VERTEX_BUFFER_TARGET }
    let accessor_index := w.accessors.length
    let accessor : Accessor :=
      { bufferView := view_index, componentType := FLOAT_COMPONENT,
        count := values.length, type := "VEC4" }
    Except.ok
      ({ data := w.data ++ bytes,
         buffer_views := w.buffer_views ++ [view],
         accessors := w.accessors ++ [accessor] }, accessor_index)

def BufferWriter.push_indices (w : BufferWriter) (values : List Nat) :
    Except String (BufferWriter × Nat) :=
  if values.isEmpty then Except.error "Index buffer cannot be empty"
  else
    let w := w.align
    let byte_offset := w.data.length
    let bytes := values.flatMap u32LE
    let view_index := w.buffer_views.length
    let view : BufferView :=
      { buffer := 0, byteOffset := byte_offset, byteLength := bytes.length,
        target := INDEX_BUFFER_TARGET }
    let accessor_index := w.accessors.length
    let accessor : Accessor :=
      { bufferView := view_index, componentType := UNSIGNED_INT_COMPONENT,
        count := values.length, type := "SCALAR" }
    Except.ok
      ({ data := w.data ++ bytes,
         buffer_views := w.buffer_views ++ [view],
         accessors := w.accessors ++ [accessor] }, accessor_index)

/-- The structured content of the JSON document mesh_to_glb builds (one mesh,
one primitive, its accessor indices, the buffer length, the recorded views
and accessors); its serialization to bytes is the abstract parameter
jsonOf. -/
structure GlbDoc where
  byteLength : Nat
  buffer_views : List BufferView
  accessors : List Accessor
  position_accessor : Nat
  normal_accessor : Nat
  tex_accessor : Nat
  tex1_accessor : Option Nat
  color_accessor : Option Nat
  index_accessor : Nat
deriving DecidableEq

def extract_vec3 (values : Option VertexAttributeValues) (name : String) :
    Except String (List Vec3) :=
  match values with
  | none => Except.error ("Mesh missing " ++ name ++ " attribute")
  | some (VertexAttributeValues.Float32x3 data) => Except.ok data
  | some _ => Except.error ("Mesh attribute " ++ name ++ " has unsupported format")

def extract_vec2 (values : Option VertexAttributeValues) (name : String) :
    Except String (List UV) :=
  match values with
  | none => Except.error ("Mesh missing " ++ name ++ " attribute")
  | some (VertexAttributeValues.Float32x2 data) => Except.ok data
  | some _ => Except.error ("Mesh attribute " ++ name ++ " has unsupported format")

def extract_optional_vec2 (values : Option VertexAttributeValues) :
    Except String (Option (List UV)) :=
  match values with
  | none => Except.ok none
  | some (VertexAttributeValues.Float32x2 data) => Except.ok (some data)
  | some _ => Except.error "Mesh attribute has unsupported format"

def extract_optional_vec4 (values : Option VertexAttributeValues) :
    Except String (Option (List Color4)) :=
  match values with
  | none => Except.ok none
  | some (VertexAttributeValues.Float32x4 data) => Except.ok (some data)
  | some _ => Except.error "Mesh attribute has unsupported format"

/-- extract_indices: 16-bit indices are widened to 32-bit (both are Nat lists
in the model, so widening is the identity). -/
def extract_indices (indices : Option MeshIndices) : Except String (List Nat) :=
  match indices with
  | none => Except.error "Mesh is missing triangle indices"
  | some (MeshIndices.U16 data) => Except.ok data
  | some (MeshIndices.U32 data) => Except.ok data

/-- mesh_to_glb, with the monadic sugar spelled out as explicit binds and
each ensure! as an ok/error guard.  f32LE abstracts the f32 little-endian
byte encoding (bytemuck cast_slice), jsonOf the serde_json serialization of
the document. -/
def mesh_to_glb (f32LE : ℚ → List Nat) (jsonOf : GlbDoc → List Nat)
    (mesh : Mesh) : Except String (List Nat) :=
  (extract_vec3 mesh.position "POSITION").bind fun positions =>
  (extract_vec3 mesh.normal "NORMAL").bind fun normals =>
  (extract_vec2 mesh.uv0 "TEXCOORD_0").bind fun texcoords =>
  (extract_optional_vec2 mesh.uv1).bind fun texcoords1 =>
  (extract_optional_vec4 mesh.color).bind fun colors =>
  (extract_indices mesh.indices).bind fun indices =>
  (if positions.length = normals.length then Except.ok ()
   else Except.error "Mesh export requires matching position and normal counts").bind fun _ =>
  (if positions.length = texcoords.length then Except.ok ()
   else Except.error "Mesh export requires matching position and UV counts").bind fun _ =>
  ((match texcoords1 with
    | some uv1 =>
      if uv1.length = positions.length then Except.ok ()
      else Except.error "Secondary UV set must match vertex count"
    | none => Except.ok ()) : Except String Unit).bind fun _ =>
  ((match colors with
    | some cols =>
      if cols.length = positions.length then Except.ok ()
      else Except.error "Vertex color count must match vertices"
    | none => Except.ok ()) : Except String Unit).bind fun _ =>
  (BufferWriter.push_vec3 {} f32LE positions true).bind fun pr =>
  (BufferWriter.push_vec3 pr.1 f32LE normals false).bind fun nr =>
  (BufferWriter.push_vec2 nr.1 f32LE texcoords).bind fun tr =>
  ((match texcoords1 with
    | some uvs => (BufferWriter.push_vec2 tr.1 f32LE uvs).map (fun r => (r.1, some r.2))
    | none => Except.ok (tr.1, none)) :
      Except String (BufferWriter × Option Nat)).bind fun t1r =>
  ((match colors with
    | some cols => (BufferWriter.push_vec4 t1r.1 f32LE cols).map (fun r => (r.1, some r.2))
    | none => Except.ok (t1r.1, none)) :
      Except String (BufferWriter × Option Nat)).bind fun cr =>
  (BufferWriter.push_indices cr.1 indices).bind fun ir =>
  let bin0 := ir.1.data
  let doc : GlbDoc :=
    { byteLength := bin0.length,
      buffer_views := ir.1.buffer_views,
      accessors := ir.1.accessors,
      position_accessor := pr.2,
      normal_accessor := nr.2,
      tex_accessor := tr.2,
      tex1_accessor := t1r.2,
      color_accessor := cr.2,
      index_accessor := ir.2 }
  let json_bytes := pad_to_four 32 (jsonOf doc)
  let bin := pad_to_four 0 bin0
  let total_length := 12 + 8 + json_bytes.length + 8 + bin.length
  Except.ok
    (u32LE 0x46546C67 ++ u32LE 2 ++ u32LE total_length ++
     u32LE json_bytes.length ++ u32LE 0x4E4F534A ++ json_bytes ++
     u32LE bin.length ++ u32LE 0x004E4942 ++ bin)

lemma except_bind_eq_ok {α β : Type} (x : Except String α)
    (f : α → Except String β) (b : β) :
    x.bind f = Except.ok b ↔ ∃ a, x = Except.ok a ∧ f a = Except.ok b := by
  cases x <;> simp [Except.bind]

lemma take4_u32 (n : Nat) (r : List Nat) : (u32LE n ++ r).take 4 = u32LE n := by
  rw [List.take_left']
  exact u32LE_length n

lemma drop4_u32 (n : Nat) (r : List Nat) : (u32LE n ++ r).drop 4 = r := by
  have h := u32LE_length n
  rw [← h, List.drop_left]

/-- Claim C2: every container the writer returns opens with the 12-byte
header magic 0x46546C67, version 2 and a total length equal to
12 + 8 + len(json_padded) + 8 + len(bin_padded); the JSON chunk carries tag
0x4E4F534A with the JSON bytes space-padded to a 4-byte boundary and the
binary chunk carries tag 0x004E4942 with the binary bytes zero-padded,
all fields little-endian.  The fit hypothesis says the container is within
u32 range, which the 4-byte length field presupposes. -/
theorem c2_glb_container (f32LE : ℚ → List Nat) (jsonOf : GlbDoc → List Nat)
    (mesh : Mesh) (g : List Nat)
    (hok : mesh_to_glb f32LE jsonOf mesh = Except.ok g)
    (hfit : g.length < 2 ^ 32) :
    ∃ doc bin0,
      (∃ k, k < 4 ∧ pad_to_four 32 (jsonOf doc) = jsonOf doc ++ List.replicate k 32) ∧
      (∃ k, k < 4 ∧ pad_to_four 0 bin0 = bin0 ++ List.replicate k 0) ∧
      (pad_to_four 32 (jsonOf doc)).length % 4 = 0 ∧
      (pad_to_four 0 bin0).length % 4 = 0 ∧
      g = u32LE 0x46546C67 ++ u32LE 2 ++
        u32LE (12 + 8 + (pad_to_four 32 (jsonOf doc)).length + 8 +
          (pad_to_four 0 bin0).length) ++
        u32LE (pad_to_four 32 (jsonOf doc)).length ++ u32LE 0x4E4F534A ++
        pad_to_four 32 (jsonOf doc) ++
        u32LE (pad_to_four 0 bin0).length ++ u32LE 0x004E4942 ++
        pad_to_four 0 bin0 ∧
      g.length = 12 + 8 + (pad_to_four 32 (jsonOf doc)).length + 8 +
        (pad_to_four 0 bin0).length ∧
      leDec4 (g.take 4) = 0x46546C67 ∧
      leDec4 ((g.drop 4).take 4) = 2 ∧
      leDec4 ((g.drop 8).take 4) =
        12 + 8 + (pad_to_four 32 (jsonOf doc)).length + 8 +
          (pad_to_four 0 bin0).length := by
  unfold mesh_to_glb at hok
  rw [except_bind_eq_ok] at hok
  obtain ⟨positions, -, hok⟩ := hok
  rw [except_bind_eq_ok] at hok
  obtain ⟨normals, -, hok⟩ := hok
  rw [except_bind_eq_ok] at hok
  obtain ⟨texcoords, -, hok⟩ := hok
  rw [except_bind_eq_ok] at hok
  obtain ⟨texcoords1, -, hok⟩ := hok
  rw [except_bind_eq_ok] at hok
  obtain ⟨colors, -, hok⟩ := hok
  rw [except_bind_eq_ok] at hok
  obtain ⟨indices, -, hok⟩ := hok
  rw [except_bind_eq_ok] at hok
  obtain ⟨-, -, hok⟩ := hok
  rw [except_bind_eq_ok] at hok
  obtain ⟨-, -, hok⟩ := hok
  rw [except_bind_eq_ok] at hok
  obtain ⟨-, -, hok⟩ := hok
  rw [except_bind_eq_ok] at hok
  obtain ⟨-, -, hok⟩ := hok
  rw [except_bind_eq_ok] at hok
  obtain ⟨pr, -, hok⟩ := hok
  rw [except_bind_eq_ok] at hok
  obtain ⟨nr, -, hok⟩ := hok
  rw [except_bind_eq_ok] at hok
  obtain ⟨tr, -, hok⟩ := hok
  rw [except_bind_eq_ok] at hok
  obtain ⟨t1r, -, hok⟩ := hok
  rw [except_bind_eq_ok] at hok
  obtain ⟨cr, -, hok⟩ := hok
  rw [except_bind_eq_ok] at hok
  obtain ⟨ir, -, hok⟩ := hok
  injection hok with hg
  refine ⟨⟨ir.1.data.length, ir.1.buffer_views, ir.1.accessors, pr.2, nr.2,
      tr.2, t1r.2, cr.2, ir.2⟩, ir.1.data,
    pad_to_four_spec 32 _, pad_to_four_spec 0 _,
    pad_to_four_mod 32 _, pad_to_four_mod 0 _, hg.symm, ?_, ?_, ?_, ?_⟩
  · rw [← hg]
    simp [List.length_append, u32LE_length]
    omega
  · rw [← hg]
    simp only [List.append_assoc]
    rw [take4_u32, u32LE_leDec4]
    norm_num
  · rw [← hg]
    simp only [List.append_assoc]
    rw [drop4_u32, take4_u32, u32LE_leDec4]
    norm_num
  · have hlen : g.length = 12 + 8 + (pad_to_four 32 (jsonOf
      ⟨ir.1.data.length, ir.1.buffer_views, ir.1.accessors, pr.2, nr.2,
        tr.2, t1r.2, cr.2, ir.2⟩)).length + 8 + (pad_to_four 0 ir.1.data).length := by
      rw [← hg]
      simp [List.length_append, u32LE_length]
      omega
    have hdrop8 : g.drop 8 = (g.drop 4).drop 4 := by
      rw [List.drop_drop]
    rw [hdrop8, ← hg]
    simp only [List.append_assoc]
    rw [drop4_u32, drop4_u32, take4_u32, u32LE_leDec4, Nat.mod_eq_of_lt]
    rw [← hlen]
    exact hfit

/-- A stand-in f32 encoder for concrete witnesses (any 4-byte encoding works;
no claim inspects float bytes). -/
def f32LE0 : ℚ → List Nat := fun _ => [0, 0, 0, 0]

/-- A stand-in JSON serializer for concrete witnesses. -/
def jsonOf0 : GlbDoc → List Nat := fun _ => []

/-- A single-triangle mesh with all required channels. -/
def c2Mesh : Mesh :=
  { position := some (VertexAttributeValues.Float32x3
      [⟨0, 0, 0⟩, ⟨1, 0, 0⟩, ⟨0, 1, 0⟩]),
    normal := some (VertexAttributeValues.Float32x3
      [⟨0, 1, 0⟩, ⟨0, 1, 0⟩, ⟨0, 1, 0⟩]),
    uv0 := some (VertexAttributeValues.Float32x2 [(0, 0), (1, 0), (0, 1)]),
    uv1 := none,
    color := none,
    indices := some (MeshIndices.U32 [0, 1, 2]) }

def c2Glb : List Nat :=
  match mesh_to_glb f32LE0 jsonOf0 c2Mesh with
  | Except.ok g => g
  | Except.error _ => []

set_option maxRecDepth 100000 in
theorem c2_witness :
    ∃ doc bin0,
      (∃ k, k < 4 ∧ pad_to_four 32 (jsonOf0 doc) = jsonOf0 doc ++ List.replicate k 32) ∧
      (∃ k, k < 4 ∧ pad_to_four 0 bin0 = bin0 ++ List.replicate k 0) ∧
      (pad_to_four 32 (jsonOf0 doc)).length % 4 = 0 ∧
      (pad_to_four 0 bin0).length % 4 = 0 ∧
      c2Glb = u32LE 0x46546C67 ++ u32LE 2 ++
        u32LE (12 + 8 + (pad_to_four 32 (jsonOf0 doc)).length + 8 +
          (pad_to_four 0 bin0).length) ++
        u32LE (pad_to_four 32 (jsonOf0 doc)).length ++ u32LE 0x4E4F534A ++
        pad_to_four 32 (jsonOf0 doc) ++
        u32LE (pad_to_four 0 bin0).length ++ u32LE 0x004E4942 ++
        pad_to_four 0 bin0 ∧
      c2Glb.length = 12 + 8 + (pad_to_four 32 (jsonOf0 doc)).length + 8 +
        (pad_to_four 0 bin0).length ∧
      leDec4 (c2Glb.take 4) = 0x46546C67 ∧
      leDec4 ((c2Glb.drop 4).take 4) = 2 ∧
      leDec4 ((c2Glb.drop 8).take 4) =
        12 + 8 + (pad_to_four 32 (jsonOf0 doc)).length + 8 +
          (pad_to_four 0 bin0).length :=
  c2_glb_container f32LE0 jsonOf0 c2Mesh c2Glb (by rfl) (by decide)

lemma except_ok_bind {α β : Type} (a : α) (f : α → Except String β) :
    (Except.ok a : Except String α).bind f = f a := rfl

lemma ensure_ok {c : Prop} [Decidable c] {e : String} {u : Unit}
    (h : (if c then Except.ok () else Except.error e : Except String Unit) =
      Except.ok u) : c := by
  by_cases hc : c
  · exact hc
  · rw [if_neg hc] at h
    cases h

lemma extract_vec3_ok {v : Option VertexAttributeValues} {name : String}
    {d : List Vec3} (h : extract_vec3 v name = Except.ok d) :
    v = some (VertexAttributeValues.Float32x3 d) := by
  rcases v with _ | a
  · simp [extract_vec3] at h
  · cases a <;> simp_all [extract_vec3]

lemma extract_vec2_ok {v : Option VertexAttributeValues} {name : String}
    {d : List UV} (h : extract_vec2 v name = Except.ok d) :
    v = some (VertexAttributeValues.Float32x2 d) := by
  rcases v with _ | a
  · simp [extract_vec2] at h
  · cases a <;> simp_all [extract_vec2]

lemma extract_optional_vec2_ok_none {v : Option VertexAttributeValues}
    (h : extract_optional_vec2 v = Except.ok none) : v = none := by
  rcases v with _ | a
  · rfl
  · cases a <;> simp [extract_optional_vec2] at h

lemma extract_optional_vec2_ok_some {v : Option VertexAttributeValues}
    {d : List UV} (h : extract_optional_vec2 v = Except.ok (some d)) :
    v = some (VertexAttributeValues.Float32x2 d) := by
  rcases v with _ | a
  · simp [extract_optional_vec2] at h
  · cases a <;> simp_all [extract_optional_vec2]

lemma extract_optional_vec4_ok_none {v : Option VertexAttributeValues}
    (h : extract_optional_vec4 v = Except.ok none) : v = none := by
  rcases v with _ | a
  · rfl
  · cases a <;> simp [extract_optional_vec4] at h

lemma extract_optional_vec4_ok_some {v : Option VertexAttributeValues}
    {d : List Color4} (h : extract_optional_vec4 v = Except.ok (some d)) :
    v = some (VertexAttributeValues.Float32x4 d) := by
  rcases v with _ | a
  · simp [extract_optional_vec4] at h
  · cases a <;> simp_all [extract_optional_vec4]

lemma extract_indices_ok {mi : Option MeshIndices} {d : List Nat}
    (h : extract_indices mi = Except.ok d) :
    mi = some (MeshIndices.U16 d) ∨ mi = some (MeshIndices.U32 d) := by
  rcases mi with _ | a
  · simp [extract_indices] at h
  · cases a <;> simp_all [extract_indices]

lemma push_vec3_ok_ne {w : BufferWriter} {f32LE : ℚ → List Nat}
    {values : List Vec3} {b : Bool} {r : BufferWriter × Nat}
    (h : BufferWriter.push_vec3 w f32LE values b = Except.ok r) :
    values ≠ [] := by
  intro hv
  subst hv
  simp [BufferWriter.push_vec3] at h

lemma push_indices_ok_ne {w : BufferWriter} {values : List Nat}
    {r : BufferWriter × Nat}
    (h : BufferWriter.push_indices w values = Except.ok r) : values ≠ [] := by
  intro hv
  subst hv
  simp [BufferWriter.push_indices] at h

/-- The exact class of meshes mesh_to_glb accepts: position, normal and
primary UV present in float layout with positions NONEMPTY and equal counts,
optional secondary UV / color either absent or in float layout with the same
count, and a nonempty index buffer in either width. -/
def glb_input_ok (mesh : Mesh) : Prop :=
  ∃ ps, mesh.position = some (VertexAttributeValues.Float32x3 ps) ∧ ps ≠ [] ∧
    (∃ ns, mesh.normal = some (VertexAttributeValues.Float32x3 ns) ∧
      ns.length = ps.length) ∧
    (∃ ts, mesh.uv0 = some (VertexAttributeValues.Float32x2 ts) ∧
      ts.length = ps.length) ∧
    (mesh.uv1 = none ∨
      ∃ ls, mesh.uv1 = some (VertexAttributeValues.Float32x2 ls) ∧
        ls.length = ps.length) ∧
    (mesh.color = none ∨
      ∃ cs, mesh.color = some (VertexAttributeValues.Float32x4 cs) ∧
        cs.length = ps.length) ∧
    (∃ il, (mesh.indices = some (MeshIndices.U16 il) ∨
      mesh.indices = some (MeshIndices.U32 il)) ∧ il ≠ [])

/-- A mesh meeting every failure-free condition the claim lists (required
channels present in float layout, all counts agreeing, index buffer present
and nonempty) whose export nevertheless fails, because the vertex arrays are
empty. -/
def c5Mesh : Mesh :=
  { position := some (VertexAttributeValues.Float32x3 []),
    normal := some (VertexAttributeValues.Float32x3 []),
    uv0 := some (VertexAttributeValues.Float32x2 []),
    uv1 := none,
    color := none,
    indices := some (MeshIndices.U32 [0]) }

/-- Claim C5 counterexample: c5Mesh satisfies none of the failure conditions
the claim lists — position, normal and primary UV are all present in the
expected float layout, every present channel's element count agrees with the
position count (all are 0), and the index buffer is present and nonempty —
yet mesh_to_glb fails (so the claim's "exactly when" is false): the writer
also rejects meshes whose vertex arrays are empty. -/
theorem c5_counterexample :
    mesh_to_glb f32LE0 jsonOf0 c5Mesh =
      Except.error "Vector attribute cannot be empty" ∧
    c5Mesh.position = some (VertexAttributeValues.Float32x3 []) ∧
    c5Mesh.normal = some (VertexAttributeValues.Float32x3 []) ∧
    c5Mesh.uv0 = some (VertexAttributeValues.Float32x2 []) ∧
    c5Mesh.uv1 = none ∧
    c5Mesh.color = none ∧
    c5Mesh.indices = some (MeshIndices.U32 [0]) ∧
    ([0] : List Nat) ≠ [] := by
  refine ⟨rfl, rfl, rfl, rfl, rfl, rfl, rfl, by decide⟩

/-- Claim C5 (amended): mesh_to_glb succeeds (returning a full container)
exactly when the mesh satisfies glb_input_ok — required channels present in
float layout with NONEMPTY, count-agreeing vertex arrays, optional channels
absent or float-layout with agreeing counts, and a present nonempty index
buffer; in every other case (including the claim's listed conditions, and
additionally empty vertex arrays) it returns an error and no bytes.  In
particular a mesh missing the normal attribute always fails. -/
theorem c5_export_error_conditions (f32LE : ℚ → List Nat)
    (jsonOf : GlbDoc → List Nat) (mesh : Mesh) :
    ((∃ bytes, mesh_to_glb f32LE jsonOf mesh = Except.ok bytes) ↔
      glb_input_ok mesh) ∧
    (mesh.normal = none →
      ∃ e, mesh_to_glb f32LE jsonOf mesh = Except.error e) := by
  have hiff : (∃ bytes, mesh_to_glb f32LE jsonOf mesh = Except.ok bytes) ↔
      glb_input_ok mesh := by
    constructor
    · rintro ⟨bytes, hok⟩
      unfold mesh_to_glb at hok
      rw [except_bind_eq_ok] at hok
      obtain ⟨ps, hpos, hok⟩ := hok
      rw [except_bind_eq_ok] at hok
      obtain ⟨ns, hnorm, hok⟩ := hok
      rw [except_bind_eq_ok] at hok
      obtain ⟨ts, huv, hok⟩ := hok
      rw [except_bind_eq_ok] at hok
      obtain ⟨t1, huv1, hok⟩ := hok
      rw [except_bind_eq_ok] at hok
      obtain ⟨co, hcol, hok⟩ := hok
      rw [except_bind_eq_ok] at hok
      obtain ⟨il, hidx, hok⟩ := hok
      rw [except_bind_eq_ok] at hok
      obtain ⟨u1, hg1, hok⟩ := hok
      rw [except_bind_eq_ok] at hok
      obtain ⟨u2, hg2, hok⟩ := hok
      rw [except_bind_eq_ok] at hok
      obtain ⟨u3, hg3, hok⟩ := hok
      rw [except_bind_eq_ok] at hok
      obtain ⟨u4, hg4, hok⟩ := hok
      rw [except_bind_eq_ok] at hok
      obtain ⟨pr, hpr, hok⟩ := hok
      rw [except_bind_eq_ok] at hok
      obtain ⟨nr, hnr, hok⟩ := hok
      rw [except_bind_eq_ok] at hok
      obtain ⟨tr, htr, hok⟩ := hok
      rw [except_bind_eq_ok] at hok
      obtain ⟨t1r, ht1r, hok⟩ := hok
      rw [except_bind_eq_ok] at hok
      obtain ⟨crv, hcr, hok⟩ := hok
      rw [except_bind_eq_ok] at hok
      obtain ⟨ir, hir, hok⟩ := hok
      have hlen1 : ps.length = ns.length := ensure_ok hg1
      have hlen2 : ps.length = ts.length := ensure_ok hg2
      refine ⟨ps, extract_vec3_ok hpos, push_vec3_ok_ne hpr,
        ⟨ns, extract_vec3_ok hnorm, hlen1.symm⟩,
        ⟨ts, extract_vec2_ok huv, hlen2.symm⟩, ?_, ?_,
        ⟨il, extract_indices_ok hidx, push_indices_ok_ne hir⟩⟩
      · rcases t1 with _ | ls
        · exact Or.inl (extract_optional_vec2_ok_none huv1)
        · exact Or.inr ⟨ls, extract_optional_vec2_ok_some huv1, ensure_ok hg3⟩
      · rcases co with _ | cs
        · exact Or.inl (extract_optional_vec4_ok_none hcol)
        · exact Or.inr ⟨cs, extract_optional_vec4_ok_some hcol, ensure_ok hg4⟩
    · rintro ⟨ps, hpos, hne, ⟨ns, hnorm, hnslen⟩, ⟨ts, huv, htslen⟩,
        huv1, hcol, ⟨il, hidx, hilne⟩⟩
      have hlist_ne : ∀ {α : Type} (l : List α), l.length = ps.length →
          l.isEmpty = false := by
        intro α l hl
        cases l with
        | nil => exact absurd (List.length_eq_zero.mp hl.symm) hne
        | cons a t => rfl
      have hps : ps.isEmpty = false := hlist_ne ps rfl
      have hns := hlist_ne ns hnslen
      have hts := hlist_ne ts htslen
      have hil : il.isEmpty = false := by
        cases il with
        | nil => exact absurd rfl hilne
        | cons a t => rfl
      have hidx2 : extract_indices mesh.indices = Except.ok il := by
        rcases hidx with h | h <;> rw [h] <;> rfl
      rcases huv1 with huv1 | ⟨ls, huv1, hlslen⟩
      · rcases hcol with hcol | ⟨cs, hcol, hcslen⟩
        · unfold mesh_to_glb
          rw [hpos, hnorm, huv, huv1, hcol, hidx2]
          simp only [extract_vec3, extract_vec2, extract_optional_vec2,
            extract_optional_vec4, except_ok_bind, hnslen, htslen,
            BufferWriter.push_vec3, BufferWriter.push_vec2,
            BufferWriter.push_indices, hps, hns, hts, hil,
            Bool.false_eq_true, if_false, eq_self_iff_true, if_true]
          exact ⟨_, rfl⟩
        · have hcs := hlist_ne cs hcslen
          unfold mesh_to_glb
          rw [hpos, hnorm, huv, huv1, hcol, hidx2]
          simp only [extract_vec3, extract_vec2, extract_optional_vec2,
            extract_optional_vec4, except_ok_bind, hnslen, htslen, hcslen,
            BufferWriter.push_vec3, BufferWriter.push_vec2,
            BufferWriter.push_vec4, BufferWriter.push_indices, Except.map,
            hps, hns, hts, hil, hcs,
            Bool.false_eq_true, if_false, eq_self_iff_true, if_true]
          exact ⟨_, rfl⟩
      · have hls := hlist_ne ls hlslen
        rcases hcol with hcol | ⟨cs, hcol, hcslen⟩
        · unfold mesh_to_glb
          rw [hpos, hnorm, huv, huv1, hcol, hidx2]
          simp only [extract_vec3, extract_vec2, extract_optional_vec2,
            extract_optional_vec4, except_ok_bind, hnslen, htslen, hlslen,
            BufferWriter.push_vec3, BufferWriter.push_vec2,
            BufferWriter.push_indices, Except.map,
            hps, hns, hts, hil, hls,
            Bool.false_eq_true, if_false, eq_self_iff_true, if_true]
          exact ⟨_, rfl⟩
        · have hcs := hlist_ne cs hcslen
          unfold mesh_to_glb
          rw [hpos, hnorm, huv, huv1, hcol, hidx2]
          simp only [extract_vec3, extract_vec2, extract_optional_vec2,
            extract_optional_vec4, except_ok_bind, hnslen, htslen, hlslen,
            hcslen, BufferWriter.push_vec3, BufferWriter.push_vec2,
            BufferWriter.push_vec4, BufferWriter.push_indices, Except.map,
            hps, hns, hts, hil, hls, hcs,
            Bool.false_eq_true, if_false, eq_self_iff_true, if_true]
          exact ⟨_, rfl⟩
  refine ⟨hiff, ?_⟩
  intro hnone
  rcases hglb : mesh_to_glb f32LE jsonOf mesh with e | b
  · exact ⟨e, rfl⟩
  · exfalso
    obtain ⟨ps, _, _, ⟨ns, hns, _⟩, _⟩ := hiff.mp ⟨b, hglb⟩
    rw [hnone] at hns
    cases hns

def c5wMesh : Mesh := { c2Mesh with normal := none }

theorem c5_witness :
    ∃ e, mesh_to_glb f32LE0 jsonOf0 c5wMesh = Except.error e :=
  (c5_export_error_conditions f32LE0 jsonOf0 c5wMesh).2 rfl
